import Mathlib

/-!
# Verification of the Kerberos 5 DER decoder (`krb5_parser.rs` / `krb5.rs`)

A shallow embedding of the decoding routines of the repository.  Input byte
views are `List Nat` (every byte intended `< 256`; theorems that depend on
byte-ness carry an explicit bound).  The nom `IResult` type is embedded as
`PRes`: a parse either succeeds with the remaining input (`done`), fails
fatally (`err`), or requires more input (`incomplete`).

The generic ASN.1 DER primitive layer is an external collaborator of the
repository (the `der_parser` crate); it is embedded here following its
interface as consumed by the source: one identifier byte
(class / constructed flag / tag number), a short- or long-form definite
length, and typed extraction of the content bytes.
-/

/-- `der_parser`'s `DerError` values used by the source. -/
inductive DerError where
  | DerTypeError
  | IntegerTooLarge
  | InvalidLength
deriving DecidableEq

/-- Error taxonomy.  `nomTag` is nom's `ErrorKind::Tag`, produced only by the
explicit `error_if!` version checks in the Kerberos layer; the `der*`
constructors are the der_parser custom error codes; `mapRes` carries the
`DerError` value returned by a `map_res!` closure and `mapResStr` the string
returned by one that fails with a message. -/
inductive PErr where
  | nomTag
  | derTag
  | derClass
  | derVerify
  | derUnsupported
  | mapRes (e : DerError)
  | mapResStr (s : String)
  | eofFail
  | many0Fail
  | many1Fail
  | completeFail
deriving DecidableEq

/-- Result of running a parser: nom's `IResult`. -/
inductive PRes (α : Type) where
  | done (rest : List Nat) (val : α)
  | err (e : PErr)
  | incomplete
deriving DecidableEq

/-- A parser over a byte view. -/
def Parser (α : Type) : Type := List Nat → PRes α

def ppure {α} (v : α) : Parser α := fun i => .done i v

def perr {α} (e : PErr) : Parser α := fun _ => .err e

/-- Sequencing of parsers (the `>>` chaining of nom's `do_parse!`). -/
def pbind {α β} (p : Parser α) (f : α → Parser β) : Parser β := fun i =>
  match p i with
  | .done r v => f v r
  | .err e => .err e
  | .incomplete => .incomplete

def pmap {α β} (p : Parser α) (f : α → β) : Parser β := fun i =>
  match p i with
  | .done r v => .done r (f v)
  | .err e => .err e
  | .incomplete => .incomplete

/-- nom `opt!`: a fatal error is rewound to `none`; `Incomplete` propagates. -/
def popt {α} (p : Parser α) : Parser (Option α) := fun i =>
  match p i with
  | .done r v => .done r (some v)
  | .err _ => .done i none
  | .incomplete => .incomplete

/-- nom `complete!`: turns `Incomplete` into a fatal error. -/
def pcomplete {α} (p : Parser α) : Parser α := fun i =>
  match p i with
  | .incomplete => .err .completeFail
  | x => x

/-- nom `eof!`: succeeds only at the end of the input. -/
def eofP : Parser Unit := fun i =>
  match i with
  | [] => .done [] ()
  | _ => .err .eofFail

/-- nom `error_if!(cond, e)`: fails with `e` when the condition holds. -/
def error_if (b : Bool) (e : PErr) : Parser Unit := fun i =>
  if b then .err e else .done i ()

/-- nom `take!(n)`: consume exactly `n` bytes. -/
def takeN (n : Nat) : Parser (List Nat) := fun i =>
  if i.length < n then .incomplete else .done (i.drop n) (i.take n)

/-- nom `flat_take!(n, p)`: run `p` on exactly the next `n` bytes; whatever
`p` leaves unconsumed inside that window is dropped. -/
def flat_take {α} (n : Nat) (p : Parser α) : Parser α := fun i =>
  if i.length < n then .incomplete
  else
    match p (i.take n) with
    | .done _ v => .done (i.drop n) v
    | .err e => .err e
    | .incomplete => .incomplete

/-- nom `map_res!` with a closure returning `Result<_, DerError>`. -/
def map_res_der {α β} (p : Parser α) (f : α → Except DerError β) : Parser β := fun i =>
  match p i with
  | .done r v =>
    match f v with
    | .ok b => .done r b
    | .error e => .err (.mapRes e)
  | .err e => .err e
  | .incomplete => .incomplete

/-- nom `map_res!` with a closure returning `Result<_, &str>`. -/
def map_res_str {α β} (p : Parser α) (f : α → Except String β) : Parser β := fun i =>
  match p i with
  | .done r v =>
    match f v with
    | .ok b => .done r b
    | .error s => .err (.mapResStr s)
  | .err e => .err e
  | .incomplete => .incomplete

/-- nom `many0!` (fuelled; the fuel is always sufficient because every
successful inner parse must consume input, which the loop checks). -/
def many0F {α} (p : Parser α) : Nat → Parser (List α)
  | 0 => fun _ => .incomplete
  | fuel + 1 => fun i =>
    match i with
    | [] => .done [] []
    | _ =>
      match p i with
      | .err _ => .done i []
      | .incomplete => .incomplete
      | .done r v =>
        if r.length = i.length then .err .many0Fail
        else
          match many0F p fuel r with
          | .done r2 vs => .done r2 (v :: vs)
          | .err e => .err e
          | .incomplete => .incomplete

def many0 {α} (p : Parser α) : Parser (List α) := fun i => many0F p (i.length + 1) i

/-- nom `many1!`: one mandatory element followed by the `many0` loop. -/
def many1 {α} (p : Parser α) : Parser (List α) := fun i =>
  match p i with
  | .err _ => .err .many1Fail
  | .incomplete => .incomplete
  | .done r v =>
    match many0 p r with
    | .done r2 vs => .done r2 (v :: vs)
    | .err e => .err e
    | .incomplete => .incomplete

/-! ## The DER primitive layer (external collaborator, `der_parser`) -/

/-- A decoded tag/length header: class (2 bits), constructed flag, tag
number (low 5 bits of the identifier byte), and the definite content
length. -/
structure DerHeader where
  cls : Nat
  structured : Bool
  tag : Nat
  len : Nat
deriving DecidableEq

/-- Big-endian base-256 value of a byte list. -/
def beNat (l : List Nat) : Nat := l.foldl (fun a b => a * 256 + b) 0

/-- Read one identifier byte and a short- or long-form definite length.
Indefinite lengths and long forms wider than 64 bits are not supported by
the primitive layer. -/
def der_read_element_header : Parser DerHeader := fun i =>
  match i with
  | b :: l :: r =>
    let mk := fun n => DerHeader.mk (b / 64) ((b / 32) % 2 == 1) (b % 32) n
    if l < 128 then .done r (mk l)
    else
      let k := l % 128
      if k = 0 then .err .derUnsupported
      else if 8 < k then .err .derUnsupported
      else if r.length < k then .incomplete
      else .done (r.drop k) (mk (beNat (r.take k)))
  | _ => .incomplete

/-- Content of a decoded DER object, as the source consumes it.  Constructed
universal SEQUENCE/SET content reached through the generic `parse_der`
entry is kept as its raw byte view (`seqRaw`): the Kerberos layer only ever
applies `as_slice` to such an object, which rejects it, so the child
structure is never observed. -/
inductive DerContent where
  | integer (b : List Nat)
  | bitString (ignoredBits : Nat) (data : List Nat)
  | octetString (b : List Nat)
  | generalString (b : List Nat)
  | genTime (b : List Nat)
  | seqRaw (b : List Nat)
  | unknown (b : List Nat)
deriving DecidableEq

structure DerObject where
  hdr : DerHeader
  content : DerContent
deriving DecidableEq

/-- Header with a fixed expected tag number, then the raw content bytes. -/
def parse_der_content (t : Nat) (mk : List Nat → DerContent) : Parser DerObject :=
  pbind der_read_element_header fun hdr =>
  pbind (error_if (hdr.tag ≠ t) .derTag) fun _ =>
  pmap (takeN hdr.len) (fun c => ⟨hdr, mk c⟩)

def parse_der_integer : Parser DerObject := parse_der_content 2 .integer

def parse_der_octetstring : Parser DerObject := parse_der_content 4 .octetString

def parse_der_generalstring : Parser DerObject := parse_der_content 27 .generalString

def parse_der_generalizedtime : Parser DerObject := parse_der_content 24 .genTime

/-- BIT STRING: the first content byte counts the unused trailing bits. -/
def parse_der_bitstring : Parser DerObject :=
  pbind der_read_element_header fun hdr =>
  pbind (error_if (hdr.tag ≠ 3) .derTag) fun _ =>
  pbind (takeN hdr.len) fun c =>
  match c with
  | [] => perr (.mapRes .InvalidLength)
  | b :: bs => ppure ⟨hdr, .bitString b bs⟩

/-- The generic `parse_der` entry point: any header, content typed by the
tag for universal-class objects and kept raw otherwise. -/
def parse_der : Parser DerObject :=
  pbind der_read_element_header fun hdr =>
  pmap (takeN hdr.len) fun c =>
    ⟨hdr,
      if hdr.cls ≠ 0 then .unknown c
      else match hdr.tag with
      | 2 => .integer c
      | 3 => match c with
             | [] => .unknown []
             | b :: bs => .bitString b bs
      | 4 => .octetString c
      | 16 => .seqRaw c
      | 17 => .seqRaw c
      | 24 => .genTime c
      | 27 => .generalString c
      | _ => .unknown c⟩

/-- `DerObject::as_slice`: the raw byte view of slice-backed content. -/
def DerObject.as_slice (x : DerObject) : Except DerError (List Nat) :=
  match x.content with
  | .integer b => .ok b
  | .bitString _ d => .ok d
  | .octetString b => .ok b
  | .generalString b => .ok b
  | .unknown b => .ok b
  | _ => .error .DerTypeError

/-- `der_parser`'s `bytes_to_u64` accumulator loop.  The source tests
`u & 0xff00_0000_0000_0000 != 0` before shifting another byte in. -/
def bytes_to_u64_go : Nat → List Nat → Except DerError Nat
  | u, [] => .ok u
  | u, c :: r =>
    if u &&& 0xFF00000000000000 ≠ 0 then .error .IntegerTooLarge
    else bytes_to_u64_go ((u <<< 8) ||| c) r

def bytes_to_u64 (s : List Nat) : Except DerError Nat := bytes_to_u64_go 0 s

/-- `DerObject::as_u32`: unsigned read of an INTEGER, failing if the value
does not fit in 32 bits. -/
def DerObject.as_u32 (x : DerObject) : Except DerError Nat :=
  match x.content with
  | .integer b =>
    match bytes_to_u64 b with
    | .ok v => if v ≤ 0xFFFFFFFF then .ok v else .error .IntegerTooLarge
    | .error e => .error e
  | _ => .error .DerTypeError

/-- `parse_der_struct!`: a constructed object whose content is parsed by the
given body; the body's leftover inside the content window is dropped. -/
def parse_der_struct {α} (body : Parser α) : Parser (DerHeader × α) :=
  pbind der_read_element_header fun hdr =>
  pbind (error_if (hdr.structured = false) .derVerify) fun _ =>
  pmap (flat_take hdr.len body) (fun v => (hdr, v))

/-- `parse_der_tagged!(EXPLICIT t, p)`: a wrapper tag with number `t` around
one inner value parsed by `p`. -/
def parse_der_tagged {α} (t : Nat) (p : Parser α) : Parser α :=
  pbind der_read_element_header fun hdr =>
  pbind (error_if (hdr.tag ≠ t) .derTag) fun _ =>
  flat_take hdr.len p

/-- `parse_der_application!(APPLICATION t, p)`: an APPLICATION-class wrapper
tag with number `t` around the body parsed by `p`. -/
def parse_der_application {α} (t : Nat) (p : Parser α) : Parser (DerHeader × α) :=
  pbind der_read_element_header fun hdr =>
  pbind (error_if (hdr.cls ≠ 1) .derClass) fun _ =>
  pbind (error_if (hdr.tag ≠ t) .derTag) fun _ =>
  pmap (flat_take hdr.len p) (fun v => (hdr, v))

/-! ## Kerberos scalar helpers -/

/-- A UTF-8 continuation byte. -/
def utf8Cont (b : Nat) : Bool := 128 ≤ b && b < 192

/-- Strict UTF-8 validity (what Rust's `str::from_utf8` accepts): no
overlong forms, no surrogates, nothing above U+10FFFF. -/
def isValidUtf8 : List Nat → Bool
  | [] => true
  | b :: r =>
    if b < 128 then isValidUtf8 r
    else if b < 194 then false
    else if b ≤ 223 then
      match r with
      | c1 :: r1 => utf8Cont c1 && isValidUtf8 r1
      | [] => false
    else if b ≤ 239 then
      match r with
      | c1 :: c2 :: r2 =>
        (if b = 224 then 160 ≤ c1 && c1 ≤ 191
         else if b = 237 then 128 ≤ c1 && c1 ≤ 159
         else utf8Cont c1) && utf8Cont c2 && isValidUtf8 r2
      | _ => false
    else if b ≤ 244 then
      match r with
      | c1 :: c2 :: c3 :: r3 =>
        (if b = 240 then 144 ≤ c1 && c1 ≤ 191
         else if b = 244 then 128 ≤ c1 && c1 ≤ 143
         else utf8Cont c1) && utf8Cont c2 && utf8Cont c3 && isValidUtf8 r3
      | _ => false
    else false

/-- The 32-bit pattern of `b as i8 as i32` for a byte `b`. -/
def i8_as_i32 (b : Nat) : Nat := if b < 128 then b else b + 0xFFFFFF00

/-- `<<` on an `i32` bit pattern (kept in 32 bits). -/
def shl32 (v k : Nat) : Nat := (v <<< k) % 2 ^ 32

/-- The signed value of a 32-bit pattern. -/
def i32val (n : Nat) : Int := if n < 2 ^ 31 then (n : Int) else (n : Int) - 2 ^ 32

/-! ## The Kerberos data model (`krb5.rs`) -/

/-- Kerberos Realm (a `KerberosString`; Rust `String`s are carried as their
UTF-8 byte sequences). -/
structure Realm where
  str : List Nat
deriving DecidableEq

structure PrincipalName where
  name_type : Int
  name_string : List (List Nat)
deriving DecidableEq

structure HostAddress where
  addr_type : Int
  address : List Nat
deriving DecidableEq

structure EncryptedData where
  etype : Int
  kvno : Option Nat
  cipher : List Nat
deriving DecidableEq

/-- Kerberos Ticket as `parse_krb5_ticket` produces it: the fourth field is
kept as the raw byte view obtained by `parse_der` + `as_slice`. -/
structure Ticket where
  tkt_vno : Nat
  realm : Realm
  sname : PrincipalName
  enc_part : List Nat
deriving DecidableEq

structure PAData where
  padata_type : Int
  padata_value : List Nat
deriving DecidableEq

structure KdcReqBody where
  kdc_options : DerObject
  cname : Option PrincipalName
  realm : Realm
  sname : Option PrincipalName
  from_ : Option DerObject
  till : DerObject
  rtime : Option DerObject
  nonce : Nat
  etype : List Int
  addresses : List HostAddress
  enc_authorization_data : Option EncryptedData
  additional_tickets : List Ticket
deriving DecidableEq

structure KdcReq where
  pvno : Nat
  msg_type : Nat
  padata : List PAData
  req_body : KdcReqBody
deriving DecidableEq

structure KdcRep where
  pvno : Nat
  msg_type : Nat
  padata : List PAData
  crealm : Realm
  cname : PrincipalName
  ticket : Ticket
  enc_part : EncryptedData
deriving DecidableEq

structure KrbError where
  pvno : Nat
  msg_type : Nat
  ctime : Option DerObject
  cusec : Option Nat
  stime : DerObject
  susec : Nat
  error_code : Int
  crealm : Option Realm
  cname : Option PrincipalName
  realm : Realm
  sname : PrincipalName
  etext : Option (List Nat)
  edata : Option DerObject
deriving DecidableEq

/-! ## The Kerberos parsers (`krb5_parser.rs`) -/

/-- `parse_der_int32`: 1 to 4 content bytes combined exactly as the source
does, by sign-extending the first byte to an `i32` and or-ing in the
remaining bytes shifted into place. -/
def parse_der_int32 : Parser Int :=
  map_res_der parse_der_integer fun x =>
    match x.content with
    | .integer b =>
      match b with
      | [a] => .ok (i32val (i8_as_i32 a))
      | [a, b1] => .ok (i32val (shl32 (i8_as_i32 a) 8 ||| b1))
      | [a, b1, c] => .ok (i32val (shl32 (i8_as_i32 a) 16 ||| shl32 b1 8 ||| c))
      | [a, b1, c, d] =>
        .ok (i32val (shl32 (i8_as_i32 a) 24 ||| shl32 b1 16 ||| shl32 c 8 ||| d))
      | _ => .error .IntegerTooLarge
    | _ => .error .DerTypeError

def parse_der_uint32 : Parser Nat :=
  map_res_der parse_der_integer fun x => x.as_u32

/-- `Microseconds ::= INTEGER (0..999999)`. -/
def parse_der_microseconds : Parser Nat :=
  map_res_der parse_der_integer fun x =>
    match x.as_u32 with
    | .ok v => if v ≤ 999999 then .ok v else .error .IntegerTooLarge
    | .error e => .error e

/-- `KerberosString ::= GeneralString`, validated as UTF-8. -/
def parse_kerberos_string : Parser (List Nat) :=
  map_res_str parse_der_generalstring fun x =>
    match x.as_slice with
    | .ok s => if isValidUtf8 s then .ok s else .error "not a valid UTF-8 string"
    | .error _ => .error "not a valid UTF-8 string"

def parse_kerberos_string_sequence : Parser (List (List Nat)) :=
  map_res_str (parse_der_struct (many0 parse_kerberos_string))
    fun ht => if ht.1.tag ≠ 16 then .error "not a sequence!" else .ok ht.2

/-- `KerberosFlags ::= BIT STRING`. -/
def parse_kerberos_flags : Parser DerObject := parse_der_bitstring

/-- `Realm ::= KerberosString`. -/
def parse_krb5_realm : Parser Realm := pmap parse_kerberos_string Realm.mk

/-- `PrincipalName ::= SEQUENCE { name-type [0] Int32, name-string [1] SEQUENCE OF KerberosString }`. -/
def parse_krb5_principalname : Parser PrincipalName :=
  map_res_str
    (parse_der_struct (
      pbind (parse_der_tagged 0 parse_der_int32) fun t =>
      pmap (parse_der_tagged 1 parse_kerberos_string_sequence) fun s =>
      PrincipalName.mk t s))
    fun ht => if ht.1.tag ≠ 16 then .error "not a sequence!" else .ok ht.2

/-- `KerberosTime ::= GeneralizedTime`. -/
def parse_kerberos_time : Parser DerObject := parse_der_generalizedtime

/-- `HostAddress ::= SEQUENCE { addr-type [0] Int32, address [1] OCTET STRING }`. -/
def parse_krb5_hostaddress : Parser HostAddress :=
  map_res_str
    (parse_der_struct (
      pbind (parse_der_tagged 0 parse_der_int32) fun t =>
      pmap (map_res_der (parse_der_tagged 1 parse_der_octetstring)
              (fun x => x.as_slice)) fun a =>
      HostAddress.mk t a))
    fun ht => if ht.1.tag ≠ 16 then .error "not a sequence!" else .ok ht.2

/-- `HostAddresses ::= SEQUENCE OF HostAddress`. -/
def parse_krb5_hostaddresses : Parser (List HostAddress) :=
  map_res_str (parse_der_struct (many0 parse_krb5_hostaddress))
    fun ht => if ht.1.tag ≠ 16 then .error "not a sequence!" else .ok ht.2

/-- `Ticket ::= [APPLICATION 1] SEQUENCE { tkt-vno [0] INTEGER (5), realm [1]
Realm, sname [2] PrincipalName, enc-part [3] EncryptedData }`.  The version
check is the `error_if!(no != 5, ErrorKind::Tag)` of the source; the fourth
field is read by the generic `parse_der` and stored via `as_slice`. -/
def parse_krb5_ticket : Parser Ticket :=
  pmap
    (parse_der_application 1 (
      pbind (parse_der_struct (
        pbind (parse_der_tagged 0 parse_der_uint32) fun no =>
        pbind (error_if (no ≠ 5) .nomTag) fun _ =>
        pbind (parse_der_tagged 1 parse_krb5_realm) fun r =>
        pbind (parse_der_tagged 2 parse_krb5_principalname) fun s =>
        pmap (map_res_der parse_der (fun x => x.as_slice)) fun e =>
        Ticket.mk no r s e)) fun st =>
      ppure st))
    (fun t => t.2.2)

/-- `EncryptedData ::= SEQUENCE { etype [0] Int32, kvno [1] UInt32 OPTIONAL,
cipher [2] OCTET STRING }`, exactly consumed (`eof!`). -/
def parse_encrypted : Parser EncryptedData :=
  pmap
    (parse_der_struct (
      pbind (parse_der_tagged 0 parse_der_int32) fun e =>
      pbind (popt (parse_der_tagged 1 parse_der_uint32)) fun k =>
      pbind (map_res_der (parse_der_tagged 2 parse_der_octetstring)
              (fun x => x.as_slice)) fun c =>
      pbind eofP fun _ =>
      ppure (EncryptedData.mk e k c)))
    (fun t => t.2)

/-- `PA-DATA ::= SEQUENCE { padata-type [1] Int32, padata-value [2] OCTET STRING }`. -/
def parse_krb5_padata : Parser PAData :=
  map_res_str
    (parse_der_struct (
      pbind (parse_der_tagged 1 parse_der_int32) fun t =>
      pmap (map_res_der (parse_der_tagged 2 parse_der_octetstring)
              (fun x => x.as_slice)) fun s =>
      PAData.mk t s))
    fun ht => if ht.1.tag ≠ 16 then .error "not a sequence!" else .ok ht.2

def parse_krb5_padata_sequence : Parser (List PAData) :=
  map_res_str (parse_der_struct (many0 parse_krb5_padata))
    fun ht => if ht.1.tag ≠ 16 then .error "not a sequence!" else .ok ht.2

/-- `KDC-REQ-BODY`: tags 0-11, with the trailing OPTIONAL fields 6, 9, 10
and 11 wrapped in `opt!(complete!(..))` so that an early end of buffer is
treated as field-absent. -/
def parse_kdc_req_body : Parser KdcReqBody :=
  pmap
    (parse_der_struct (
      pbind (parse_der_tagged 0 parse_kerberos_flags) fun o =>
      pbind (popt (parse_der_tagged 1 parse_krb5_principalname)) fun cname =>
      pbind (parse_der_tagged 2 parse_krb5_realm) fun realm =>
      pbind (popt (parse_der_tagged 3 parse_krb5_principalname)) fun sname =>
      pbind (popt (parse_der_tagged 4 parse_kerberos_time)) fun fr =>
      pbind (parse_der_tagged 5 parse_kerberos_time) fun till =>
      pbind (popt (pcomplete (parse_der_tagged 6 parse_kerberos_time))) fun rtime =>
      pbind (parse_der_tagged 7 parse_der_uint32) fun nonce =>
      pbind (parse_der_tagged 8 (parse_der_struct (many1 parse_der_int32))) fun etype =>
      pbind (popt (pcomplete (parse_der_tagged 9 parse_krb5_hostaddresses))) fun addr =>
      pbind (popt (pcomplete (parse_der_tagged 10 parse_encrypted))) fun ead =>
      pbind (popt (pcomplete (parse_der_tagged 11
              (parse_der_struct (many1 parse_krb5_ticket))))) fun atkts =>
      pbind eofP fun _ =>
      ppure (KdcReqBody.mk o cname realm sname fr till rtime nonce etype.2
        (addr.getD []) ead
        (match atkts with | some p => p.2 | none => []))))
    (fun t => t.2)

/-- `KDC-REQ ::= SEQUENCE { pvno [1], msg-type [2], padata [3] OPTIONAL,
req-body [4] }`, exactly consumed. -/
def parse_kdc_req : Parser KdcReq :=
  pmap
    (parse_der_struct (
      pbind (parse_der_tagged 1 parse_der_uint32) fun n =>
      pbind (parse_der_tagged 2 parse_der_uint32) fun t =>
      pbind (popt (parse_der_tagged 3 parse_krb5_padata_sequence)) fun d =>
      pbind (parse_der_tagged 4 parse_kdc_req_body) fun b =>
      pbind eofP fun _ =>
      ppure (KdcReq.mk n t (d.getD []) b)))
    (fun t => t.2)

/-- `AS-REQ ::= [APPLICATION 10] KDC-REQ`. -/
def parse_as_req : Parser KdcReq :=
  pmap (parse_der_application 10 parse_kdc_req) (fun t => t.2)

/-- `TGS-REQ ::= [APPLICATION 12] KDC-REQ`. -/
def parse_tgs_req : Parser KdcReq :=
  pmap (parse_der_application 12 parse_kdc_req) (fun t => t.2)

/-- `KDC-REP ::= SEQUENCE { pvno [0], msg-type [1], padata [2] OPTIONAL,
crealm [3], cname [4], ticket [5], enc-part [6] }`, exactly consumed. -/
def parse_kdc_rep : Parser KdcRep :=
  pmap
    (parse_der_struct (
      pbind (parse_der_tagged 0 parse_der_uint32) fun pvno =>
      pbind (parse_der_tagged 1 parse_der_uint32) fun msgtype =>
      pbind (popt (parse_der_tagged 2 parse_krb5_padata_sequence)) fun padata =>
      pbind (parse_der_tagged 3 parse_krb5_realm) fun crealm =>
      pbind (parse_der_tagged 4 parse_krb5_principalname) fun cname =>
      pbind (parse_der_tagged 5 parse_krb5_ticket) fun ticket =>
      pbind (parse_der_tagged 6 parse_encrypted) fun encp =>
      pbind eofP fun _ =>
      ppure (KdcRep.mk pvno msgtype (padata.getD []) crealm cname ticket encp)))
    (fun t => t.2)

/-- `AS-REP ::= [APPLICATION 11] KDC-REP`. -/
def parse_as_rep : Parser KdcRep :=
  pmap (parse_der_application 11 parse_kdc_rep) (fun t => t.2)

/-- `TGS-REP ::= [APPLICATION 13] KDC-REP`. -/
def parse_tgs_rep : Parser KdcRep :=
  pmap (parse_der_application 13 parse_kdc_rep) (fun t => t.2)

/-- `KRB-ERROR ::= [APPLICATION 30] SEQUENCE { ... }` with the two
`error_if!(_, ErrorKind::Tag)` hard checks `pvno == 5` and
`msg_type == 30` right after those fields are decoded. -/
def parse_krb_error : Parser KrbError :=
  pmap
    (parse_der_application 30 (
      pbind (parse_der_struct (
        pbind (parse_der_tagged 0 parse_der_uint32) fun pvno =>
        pbind (error_if (pvno ≠ 5) .nomTag) fun _ =>
        pbind (parse_der_tagged 1 parse_der_uint32) fun msgtype =>
        pbind (error_if (msgtype ≠ 30) .nomTag) fun _ =>
        pbind (popt (parse_der_tagged 2 parse_kerberos_time)) fun ctime =>
        pbind (popt (parse_der_tagged 3 parse_der_microseconds)) fun cusec =>
        pbind (parse_der_tagged 4 parse_kerberos_time) fun stime =>
        pbind (parse_der_tagged 5 parse_der_microseconds) fun susec =>
        pbind (parse_der_tagged 6 parse_der_int32) fun errorc =>
        pbind (popt (parse_der_tagged 7 parse_krb5_realm)) fun crealm =>
        pbind (popt (parse_der_tagged 8 parse_krb5_principalname)) fun cname =>
        pbind (parse_der_tagged 9 parse_krb5_realm) fun realm =>
        pbind (parse_der_tagged 10 parse_krb5_principalname) fun sname =>
        pbind (popt (pcomplete (parse_der_tagged 11 parse_kerberos_string))) fun etext =>
        pbind (popt (pcomplete (parse_der_tagged 12 parse_der_octetstring))) fun edata =>
        ppure (KrbError.mk pvno msgtype ctime cusec stime susec errorc
          crealm cname realm sname etext edata))) fun st =>
      ppure st))
    (fun t => t.2.2)

/-! ## DER byte-level encoders (specification side)

Used to state theorems that quantify over well-formed encodings. -/

/-- Minimal big-endian base-256 digits of `n` (empty for 0). -/
def beBytes (n : Nat) : List Nat :=
  if n = 0 then [] else beBytes (n / 256) ++ [n % 256]
termination_by n
decreasing_by omega

/-- DER definite-length encoding: short form below 128, long form above. -/
def encLen (n : Nat) : List Nat :=
  if n < 128 then [n] else (128 + (beBytes n).length) :: beBytes n

/-- A TLV with identifier byte `idb` and content `c`. -/
def encTLV (idb : Nat) (c : List Nat) : List Nat := idb :: encLen c.length ++ c

/-- All entries of a byte view are bytes. -/
def ByteOk (l : List Nat) : Prop := ∀ b ∈ l, b < 256

instance decByteOk (l : List Nat) : Decidable (ByteOk l) :=
  inferInstanceAs (Decidable (∀ b ∈ l, b < 256))

/-! ## Basic lemmas about the byte-level encoders -/

theorem beNat_append_single (l : List Nat) (b : Nat) :
    beNat (l ++ [b]) = beNat l * 256 + b := by
  simp [beNat, List.foldl_append]

theorem beBytes_zero : beBytes 0 = [] := by
  rw [beBytes]
  simp

theorem beBytes_pos {n : Nat} (h : n ≠ 0) :
    beBytes n = beBytes (n / 256) ++ [n % 256] := by
  rw [beBytes]
  simp [h]

theorem beNat_beBytes (n : Nat) : beNat (beBytes n) = n := by
  induction n using Nat.strong_induction_on with
  | _ n ih =>
    by_cases h0 : n = 0
    · subst h0
      simp [beBytes_zero, beNat]
    · rw [beBytes_pos h0, beNat_append_single, ih (n / 256) (by omega)]
      omega

theorem beBytes_length_le (k : Nat) : ∀ n, n < 2 ^ (8 * k) → (beBytes n).length ≤ k := by
  induction k with
  | zero =>
    intro n h
    simp at h
    subst h
    simp [beBytes_zero]
  | succ k ih =>
    intro n h
    by_cases h0 : n = 0
    · subst h0
      simp [beBytes_zero]
    · rw [beBytes_pos h0]
      have h2 : n / 256 < 2 ^ (8 * k) := by
        have hp : (2 : Nat) ^ (8 * (k + 1)) = 2 ^ (8 * k) * 256 := by ring
        rw [hp] at h
        omega
      have := ih (n / 256) h2
      simp [List.length_append]
      omega

theorem beBytes_ne_nil {n : Nat} (h : 0 < n) : beBytes n ≠ [] := by
  rw [beBytes_pos (by omega)]
  simp

/-- Parsing a header back from its encoding. -/
theorem der_header_enc (idb n : Nat) (rest : List Nat) (h : n < 2 ^ 64) :
    der_read_element_header (idb :: encLen n ++ rest) =
      .done rest (DerHeader.mk (idb / 64) ((idb / 32) % 2 == 1) (idb % 32) n) := by
  by_cases hn : n < 128
  · simp [encLen, hn, der_read_element_header]
  · have hkle : (beBytes n).length ≤ 8 := beBytes_length_le 8 n (by norm_num at h ⊢; omega)
    have hkpos : beBytes n ≠ [] := beBytes_ne_nil (by omega)
    have hk1 : 1 ≤ (beBytes n).length := by
      cases hb : beBytes n with
      | nil => exact absurd hb hkpos
      | cons a l => simp
    simp only [encLen, hn, if_false, List.cons_append]
    rw [der_read_element_header]
    have hge : ¬ (128 + (beBytes n).length < 128) := by omega
    simp only [hge, if_false]
    have hmod : (128 + (beBytes n).length) % 128 = (beBytes n).length := by omega
    rw [hmod]
    have hne0 : ¬ ((beBytes n).length = 0) := by omega
    have hle8 : ¬ (8 < (beBytes n).length) := by omega
    simp only [hne0, hle8, if_false]
    have hlen : ¬ ((beBytes n ++ rest).length < (beBytes n).length) := by
      simp [List.length_append]
    simp only [hlen, if_false]
    rw [List.take_left, List.drop_left, beNat_beBytes]

theorem flat_take_exact {α} (p : Parser α) (c ext : List Nat) :
    flat_take c.length p (c ++ ext) =
      match p c with
      | .done _ v => .done ext v
      | .err e => .err e
      | .incomplete => .incomplete := by
  have hlen : ¬ ((c ++ ext).length < c.length) := by simp [List.length_append]
  simp only [flat_take, hlen, if_false, List.take_left, List.drop_left]

theorem takeN_exact (c ext : List Nat) :
    takeN c.length (c ++ ext) = .done ext c := by
  have hlen : ¬ ((c ++ ext).length < c.length) := by simp [List.length_append]
  simp only [takeN, hlen, if_false, List.take_left, List.drop_left]

/-- Parsing a wrapper tag back from its encoding. -/
theorem parse_der_tagged_enc {α} (t idb : Nat) (p : Parser α) (c ext : List Nat)
    (hsz : c.length < 2 ^ 64) (ht : idb % 32 = t) :
    parse_der_tagged t p (idb :: encLen c.length ++ c ++ ext) =
      match p c with
      | .done _ v => .done ext v
      | .err e => .err e
      | .incomplete => .incomplete := by
  rw [parse_der_tagged, pbind]
  rw [show idb :: encLen c.length ++ c ++ ext = idb :: encLen c.length ++ (c ++ ext) by simp]
  rw [der_header_enc idb c.length (c ++ ext) hsz]
  simp only [error_if, pbind, ht]
  simp only [ne_eq, not_true_eq_false, if_false, ite_false]
  exact flat_take_exact p c ext

/-- Parsing a constructed wrapper back from its encoding. -/
theorem parse_der_struct_enc {α} (idb : Nat) (body : Parser α) (c ext : List Nat)
    (hsz : c.length < 2 ^ 64) (hstr : (idb / 32) % 2 = 1) :
    parse_der_struct body (idb :: encLen c.length ++ c ++ ext) =
      match body c with
      | .done _ v =>
        .done ext (DerHeader.mk (idb / 64) true (idb % 32) c.length, v)
      | .err e => .err e
      | .incomplete => .incomplete := by
  rw [parse_der_struct, pbind]
  rw [show idb :: encLen c.length ++ c ++ ext = idb :: encLen c.length ++ (c ++ ext) by simp]
  rw [der_header_enc idb c.length (c ++ ext) hsz]
  cases hb : body c <;>
    simp [error_if, pbind, hstr, pmap, flat_take_exact body c ext, hb]

/-- Parsing an APPLICATION wrapper back from its encoding. -/
theorem parse_der_application_enc {α} (t idb : Nat) (p : Parser α) (c ext : List Nat)
    (hsz : c.length < 2 ^ 64) (hcls : idb / 64 = 1) (ht : idb % 32 = t) :
    parse_der_application t p (idb :: encLen c.length ++ c ++ ext) =
      match p c with
      | .done _ v =>
        .done ext (DerHeader.mk 1 ((idb / 32) % 2 == 1) t c.length, v)
      | .err e => .err e
      | .incomplete => .incomplete := by
  rw [parse_der_application, pbind]
  rw [show idb :: encLen c.length ++ c ++ ext = idb :: encLen c.length ++ (c ++ ext) by simp]
  rw [der_header_enc idb c.length (c ++ ext) hsz]
  cases hp : p c <;>
    simp [error_if, pbind, hcls, ht, pmap, flat_take_exact p c ext, hp]

/-- Parsing a primitive content object back from its encoding. -/
theorem parse_der_content_enc (t idb : Nat) (mk : List Nat → DerContent) (c ext : List Nat)
    (hsz : c.length < 2 ^ 64) (ht : idb % 32 = t) :
    parse_der_content t mk (idb :: encLen c.length ++ c ++ ext) =
      .done ext
        ⟨DerHeader.mk (idb / 64) ((idb / 32) % 2 == 1) t c.length, mk c⟩ := by
  rw [parse_der_content, pbind]
  rw [show idb :: encLen c.length ++ c ++ ext = idb :: encLen c.length ++ (c ++ ext) by simp]
  rw [der_header_enc idb c.length (c ++ ext) hsz]
  simp [error_if, pbind, ht, pmap, takeN_exact c ext]

/-! ## Bit-level arithmetic lemmas -/

/-- Bitwise or of values occupying disjoint bit ranges is addition. -/
theorem lor_of_disjoint {a b k : Nat} (ha : a % 2 ^ k = 0) (hb : b < 2 ^ k) :
    a ||| b = a + b := by
  obtain ⟨m, hm⟩ : 2 ^ k ∣ a := Nat.dvd_of_mod_eq_zero ha
  subst hm
  exact (Nat.mul_add_lt_is_or hb m).symm

theorem land_top_byte_zero {u : Nat} (h : u < 2 ^ 56) :
    u &&& 0xFF00000000000000 = 0 := by
  apply Nat.eq_of_testBit_eq
  intro i
  simp only [Nat.testBit_and, Nat.zero_testBit]
  by_cases hi : i < 56
  · have hm : (0xFF00000000000000 : Nat).testBit i = false := by
      have he : (0xFF00000000000000 : Nat) = 2 ^ 56 * 255 := by norm_num
      rw [he, Nat.testBit_mul_pow_two]
      simp [Nat.not_le_of_lt hi]
    simp [hm]
  · have hu : u.testBit i = false :=
      Nat.testBit_lt_two_pow
        (lt_of_lt_of_le h (Nat.pow_le_pow_right (by norm_num) (by omega)))
    simp [hu]

theorem land_top_byte_ne_zero {u : Nat} (h1 : 2 ^ 56 ≤ u) (h2 : u < 2 ^ 64) :
    u &&& 0xFF00000000000000 ≠ 0 := by
  have hq0 : u / 2 ^ 56 ≠ 0 :=
    Nat.pos_iff_ne_zero.mp (Nat.div_pos h1 (by positivity))
  obtain ⟨i, hi⟩ := Nat.ne_zero_implies_bit_true hq0
  have hqlt : u / 2 ^ 56 < 2 ^ 8 := by
    have : u < 2 ^ 56 * 2 ^ 8 := by norm_num at h2 ⊢; omega
    omega
  have hilt : i < 8 := by
    have hge := Nat.testBit_implies_ge hi
    by_contra hc
    have : (2 : Nat) ^ 8 ≤ 2 ^ i := Nat.pow_le_pow_right (by norm_num) (by omega)
    omega
  have hbit : u.testBit (56 + i) = true := by
    rw [Nat.testBit_to_div_mod] at hi ⊢
    rw [Nat.pow_add, ← Nat.div_div_eq_div_mul]
    exact hi
  have hmask : (0xFF00000000000000 : Nat).testBit (56 + i) = true := by
    have he : (0xFF00000000000000 : Nat) = 2 ^ 56 * (2 ^ 8 - 1) := by norm_num
    have h255 : (255 : Nat).testBit i = true := by
      rw [show (255 : Nat) = 2 ^ 8 - 1 by norm_num, Nat.testBit_two_pow_sub_one]
      simp [hilt]
    rw [he, Nat.testBit_mul_pow_two]
    simp [h255]
  intro hz
  have hb2 := congrArg (fun x => Nat.testBit x (56 + i)) hz
  simp only [Nat.testBit_and, hbit, hmask, Nat.zero_testBit, Bool.and_self] at hb2
  exact absurd hb2 (by decide)

/-- Big-endian accumulation starting from `u`. -/
def beNatFrom (u : Nat) (l : List Nat) : Nat := l.foldl (fun a b => a * 256 + b) u

theorem beNatFrom_zero (l : List Nat) : beNatFrom 0 l = beNat l := rfl

theorem beNatFrom_cons (u c : Nat) (l : List Nat) :
    beNatFrom u (c :: l) = beNatFrom (u * 256 + c) l := rfl

theorem le_beNatFrom (u : Nat) (l : List Nat) : u ≤ beNatFrom u l := by
  induction l generalizing u with
  | nil => exact le_refl u
  | cons c r ih =>
    rw [beNatFrom_cons]
    calc u ≤ u * 256 + c := by omega
    _ ≤ beNatFrom (u * 256 + c) r := ih _

theorem bytes_to_u64_go_ok (l : List Nat) : ∀ u, ByteOk l →
    beNatFrom u l < 2 ^ 64 → bytes_to_u64_go u l = .ok (beNatFrom u l) := by
  induction l with
  | nil => intro u _ _; rfl
  | cons c r ih =>
    intro u hok hlt
    have hc : c < 256 := hok c (by simp)
    have hstep : beNatFrom u (c :: r) = beNatFrom (u * 256 + c) r := rfl
    have hub : u * 256 + c < 2 ^ 64 := by
      have := le_beNatFrom (u * 256 + c) r
      rw [hstep] at hlt
      omega
    have hu56 : u < 2 ^ 56 := by norm_num at hub ⊢; omega
    rw [bytes_to_u64_go]
    simp only [land_top_byte_zero hu56, ne_eq, not_true_eq_false, if_false,
      ite_false]
    have hsh : (u <<< 8) ||| c = u * 256 + c := by
      rw [Nat.shiftLeft_eq]
      rw [lor_of_disjoint (k := 8) (by simp [Nat.mul_mod_left]) (by omega)]
    rw [hsh, hstep]
    exact ih (u * 256 + c) (fun b hb => hok b (by simp [hb])) (hstep ▸ hlt)

theorem bytes_to_u64_go_large (l : List Nat) : ∀ u, ByteOk l → u < 2 ^ 56 →
    2 ^ 64 ≤ beNatFrom u l → bytes_to_u64_go u l = .error .IntegerTooLarge := by
  induction l with
  | nil =>
    intro u _ hu hge
    exfalso
    have : beNatFrom u [] = u := rfl
    rw [this] at hge
    norm_num at hu hge
    omega
  | cons c r ih =>
    intro u hok hu hge
    have hc : c < 256 := hok c (by simp)
    have hstep : beNatFrom u (c :: r) = beNatFrom (u * 256 + c) r := rfl
    rw [bytes_to_u64_go]
    simp only [land_top_byte_zero hu, ne_eq, not_true_eq_false, if_false,
      ite_false]
    have hsh : (u <<< 8) ||| c = u * 256 + c := by
      rw [Nat.shiftLeft_eq]
      rw [lor_of_disjoint (k := 8) (by simp [Nat.mul_mod_left]) (by omega)]
    rw [hsh]
    have hub : u * 256 + c < 2 ^ 64 := by norm_num at hu ⊢; omega
    by_cases h56 : u * 256 + c < 2 ^ 56
    · exact ih _ (fun b hb => hok b (by simp [hb])) h56 (hstep ▸ hge)
    · match r with
      | [] =>
        exfalso
        have : beNatFrom u [c] = u * 256 + c := rfl
        rw [this] at hge
        omega
      | d :: r2 =>
        rw [bytes_to_u64_go]
        simp [land_top_byte_ne_zero (by omega) hub]

theorem bytes_to_u64_ok {l : List Nat} (hok : ByteOk l) (h : beNat l < 2 ^ 64) :
    bytes_to_u64 l = .ok (beNat l) := by
  rw [bytes_to_u64, ← beNatFrom_zero]
  exact bytes_to_u64_go_ok l 0 hok (by rw [beNatFrom_zero]; exact h)

theorem bytes_to_u64_large {l : List Nat} (hok : ByteOk l) (h : 2 ^ 64 ≤ beNat l) :
    bytes_to_u64 l = .error .IntegerTooLarge := by
  rw [bytes_to_u64]
  exact bytes_to_u64_go_large l 0 hok (by positivity) (by rw [beNatFrom_zero]; exact h)

/-- `as_u32` on an INTEGER object whose value fits. -/
theorem as_u32_ok (hdr : DerHeader) {b : List Nat} (hok : ByteOk b)
    (h : beNat b ≤ 0xFFFFFFFF) :
    (DerObject.mk hdr (.integer b)).as_u32 = .ok (beNat b) := by
  have hv := bytes_to_u64_ok hok (show beNat b < 2 ^ 64 by norm_num at h ⊢; omega)
  simp [DerObject.as_u32, hv, h]

/-- `as_u32` on an INTEGER object whose value does not fit in 32 bits. -/
theorem as_u32_large (hdr : DerHeader) {b : List Nat} (hok : ByteOk b)
    (h : 0xFFFFFFFF < beNat b) :
    (DerObject.mk hdr (.integer b)).as_u32 = .error .IntegerTooLarge := by
  by_cases h64 : beNat b < 2 ^ 64
  · have hv := bytes_to_u64_ok hok h64
    simp only [DerObject.as_u32, hv]
    rw [if_neg (by omega)]
  · have hv := bytes_to_u64_large hok (by omega)
    simp [DerObject.as_u32, hv]

/-! ## Signed 32-bit decoding arithmetic -/

/-- The big-endian two's-complement signed value of a byte list: the
unsigned value, sign-extended from the most significant byte. -/
def twosBE (c : List Nat) : Int :=
  if c.headD 0 < 128 then (beNat c : Int)
  else (beNat c : Int) - 2 ^ (8 * c.length)

theorem twosBE_one {a : Nat} (ha : a < 256) :
    i32val (i8_as_i32 a) = twosBE [a] := by
  simp only [twosBE, i32val, i8_as_i32, beNat, List.foldl, List.headD,
    List.length_cons, List.length_nil]
  split_ifs <;> push_cast <;> omega

theorem twosBE_two {a b : Nat} (ha : a < 256) (hb : b < 256) :
    i32val (shl32 (i8_as_i32 a) 8 ||| b) = twosBE [a, b] := by
  have hbe : beNat [a, b] = a * 256 + b := by
    simp [beNat]
  by_cases h : a < 128
  · have hsh : shl32 (i8_as_i32 a) 8 = a * 256 := by
      simp only [shl32, i8_as_i32, if_pos h, Nat.shiftLeft_eq]
      omega
    rw [hsh, lor_of_disjoint (k := 8) (by omega) (by omega)]
    simp only [twosBE, i32val, hbe, List.headD, List.length_cons, List.length_nil]
    split_ifs <;> push_cast <;> omega
  · have hsh : shl32 (i8_as_i32 a) 8 = a * 256 + 4294901760 := by
      simp only [shl32, i8_as_i32, if_neg h, Nat.shiftLeft_eq]
      omega
    rw [hsh, lor_of_disjoint (k := 8) (by omega) (by omega)]
    simp only [twosBE, i32val, hbe, List.headD, List.length_cons, List.length_nil]
    split_ifs <;> push_cast <;> omega

theorem twosBE_three {a b c : Nat} (ha : a < 256) (hb : b < 256) (hc : c < 256) :
    i32val (shl32 (i8_as_i32 a) 16 ||| shl32 b 8 ||| c) = twosBE [a, b, c] := by
  have hbe : beNat [a, b, c] = a * 65536 + b * 256 + c := by
    simp [beNat]
    ring
  have hs2 : shl32 b 8 = b * 256 := by
    simp only [shl32, Nat.shiftLeft_eq]
    omega
  by_cases h : a < 128
  · have hsh : shl32 (i8_as_i32 a) 16 = a * 65536 := by
      simp only [shl32, i8_as_i32, if_pos h, Nat.shiftLeft_eq]
      omega
    have hin : a * 65536 ||| b * 256 = a * 65536 + b * 256 :=
      lor_of_disjoint (k := 16) (by omega) (by omega)
    have hout : a * 65536 + b * 256 ||| c = a * 65536 + b * 256 + c :=
      lor_of_disjoint (k := 8) (by omega) (by omega)
    rw [hsh, hs2, hin, hout]
    simp only [twosBE, i32val, hbe, List.headD, List.length_cons, List.length_nil]
    split_ifs <;> push_cast <;> omega
  · have hsh : shl32 (i8_as_i32 a) 16 = a * 65536 + 4278190080 := by
      simp only [shl32, i8_as_i32, if_neg h, Nat.shiftLeft_eq]
      omega
    have hin : a * 65536 + 4278190080 ||| b * 256 = a * 65536 + 4278190080 + b * 256 :=
      lor_of_disjoint (k := 16) (by omega) (by omega)
    have hout : a * 65536 + 4278190080 + b * 256 ||| c =
        a * 65536 + 4278190080 + b * 256 + c :=
      lor_of_disjoint (k := 8) (by omega) (by omega)
    rw [hsh, hs2, hin, hout]
    simp only [twosBE, i32val, hbe, List.headD, List.length_cons, List.length_nil]
    split_ifs <;> push_cast <;> omega

theorem twosBE_four {a b c d : Nat} (ha : a < 256) (hb : b < 256) (hc : c < 256)
    (hd : d < 256) :
    i32val (shl32 (i8_as_i32 a) 24 ||| shl32 b 16 ||| shl32 c 8 ||| d) =
      twosBE [a, b, c, d] := by
  have hbe : beNat [a, b, c, d] = a * 16777216 + b * 65536 + c * 256 + d := by
    simp [beNat]
    ring
  have hs2 : shl32 b 16 = b * 65536 := by
    simp only [shl32, Nat.shiftLeft_eq]
    omega
  have hs3 : shl32 c 8 = c * 256 := by
    simp only [shl32, Nat.shiftLeft_eq]
    omega
  have hsh : shl32 (i8_as_i32 a) 24 = a * 16777216 := by
    simp only [shl32, i8_as_i32, Nat.shiftLeft_eq]
    split_ifs <;> omega
  have h1 : a * 16777216 ||| b * 65536 = a * 16777216 + b * 65536 :=
    lor_of_disjoint (k := 24) (by omega) (by omega)
  have h2 : a * 16777216 + b * 65536 ||| c * 256 =
      a * 16777216 + b * 65536 + c * 256 :=
    lor_of_disjoint (k := 16) (by omega) (by omega)
  have h3 : a * 16777216 + b * 65536 + c * 256 ||| d =
      a * 16777216 + b * 65536 + c * 256 + d :=
    lor_of_disjoint (k := 8) (by omega) (by omega)
  rw [hsh, hs2, hs3, h1, h2, h3]
  simp only [twosBE, i32val, hbe, List.headD, List.length_cons, List.length_nil]
  split_ifs <;> push_cast <;> omega

/-! ## Claim C6 and C7 -/

/-- Core behaviour of `parse_der_int32` on a decoded INTEGER content. -/
theorem int32_of_integer {i r : List Nat} {hdr : DerHeader} {c : List Nat}
    (hp : parse_der_integer i = .done r (DerObject.mk hdr (.integer c)))
    (hok : ByteOk c) :
    (1 ≤ c.length ∧ c.length ≤ 4 → parse_der_int32 i = .done r (twosBE c)) ∧
    (c.length = 0 ∨ 5 ≤ c.length →
      parse_der_int32 i = .err (.mapRes .IntegerTooLarge)) := by
  constructor
  · rintro ⟨h1, h4⟩
    match c, hok, h1, h4 with
    | [a], hok, _, _ =>
      simp only [parse_der_int32, map_res_der, hp]
      rw [twosBE_one (hok a (by simp))]
    | [a, b], hok, _, _ =>
      simp only [parse_der_int32, map_res_der, hp]
      rw [twosBE_two (hok a (by simp)) (hok b (by simp))]
    | [a, b, c1], hok, _, _ =>
      simp only [parse_der_int32, map_res_der, hp]
      rw [twosBE_three (hok a (by simp)) (hok b (by simp)) (hok c1 (by simp))]
    | [a, b, c1, d], hok, _, _ =>
      simp only [parse_der_int32, map_res_der, hp]
      rw [twosBE_four (hok a (by simp)) (hok b (by simp)) (hok c1 (by simp))
        (hok d (by simp))]
    | [], _, h1, _ => exact absurd h1 (by simp)
    | a :: b :: c1 :: d :: e :: rest, _, _, h4 => simp at h4
  · intro h
    match c, h with
    | [], _ => simp only [parse_der_int32, map_res_der, hp]
    | [a], h => simp at h
    | [a, b], h => simp at h
    | [a, b, c1], h => simp at h
    | [a, b, c1, d], h => simp at h
    | a :: b :: c1 :: d :: e :: rest, _ =>
      simp only [parse_der_int32, map_res_der, hp]

/-- C6: for every BER INTEGER whose content is 1 to 4 bytes, `parse_der_int32`
returns the big-endian two's-complement signed 32-bit value, sign-extending
from the most significant content byte (`twosBE`); for content length 0 or
greater than 4 it fails with a fatal `IntegerTooLarge` error. -/
theorem claim_C6 {i r : List Nat} {hdr : DerHeader} {c : List Nat}
    (hp : parse_der_integer i = .done r (DerObject.mk hdr (.integer c)))
    (hok : ByteOk c) :
    (1 ≤ c.length ∧ c.length ≤ 4 → parse_der_int32 i = .done r (twosBE c)) ∧
    (c.length = 0 ∨ 5 ≤ c.length →
      parse_der_int32 i = .err (.mapRes .IntegerTooLarge)) :=
  int32_of_integer hp hok

/-- Witness for C6 at concrete inputs: the two-byte content `FF 7F` decodes
to -129 and a five-byte content fails with `IntegerTooLarge`. -/
theorem claim_C6_witness :
    parse_der_int32 [2, 2, 255, 127] = .done [] (-129) ∧
    parse_der_int32 [2, 5, 1, 2, 3, 4, 5] = .err (.mapRes .IntegerTooLarge) := by
  constructor
  · have h := (@claim_C6 [2, 2, 255, 127] [] ⟨0, false, 2, 2⟩ [255, 127]
      rfl (by decide)).1 (by decide)
    rw [h]
    decide
  · exact (@claim_C6 [2, 5, 1, 2, 3, 4, 5] [] ⟨0, false, 2, 5⟩ [1, 2, 3, 4, 5]
      rfl (by decide)).2 (by decide)

/-- C7: for every microseconds input, a value in 0..999999 decodes to
itself, and any value of 1000000 or more fails with the fatal
integer-range error (`DerError::IntegerTooLarge` in the source, the
spec's IntegerOutOfRange kind), which is distinct from the structural
decode failures. -/
theorem claim_C7 {i r : List Nat} {hdr : DerHeader} {c : List Nat}
    (hp : parse_der_integer i = .done r (DerObject.mk hdr (.integer c)))
    (hok : ByteOk c) :
    (beNat c ≤ 999999 → parse_der_microseconds i = .done r (beNat c)) ∧
    (1000000 ≤ beNat c →
      parse_der_microseconds i = .err (.mapRes .IntegerTooLarge)) := by
  constructor
  · intro h
    have hu := as_u32_ok hdr hok (by omega)
    simp only [parse_der_microseconds, map_res_der, hp, hu]
    rw [if_pos h]
  · intro h
    by_cases h32 : beNat c ≤ 0xFFFFFFFF
    · have hu := as_u32_ok hdr hok h32
      simp only [parse_der_microseconds, map_res_der, hp, hu]
      rw [if_neg (by omega)]
    · have hu := as_u32_large hdr hok (by omega)
      simp only [parse_der_microseconds, map_res_der, hp, hu]

/-- Witness for C7 at concrete inputs: 999999 decodes to itself, 1000000
fails. -/
theorem claim_C7_witness :
    parse_der_microseconds [2, 3, 15, 66, 63] = .done [] 999999 ∧
    parse_der_microseconds [2, 3, 15, 66, 64] = .err (.mapRes .IntegerTooLarge) := by
  constructor
  · have h := (@claim_C7 [2, 3, 15, 66, 63] [] ⟨0, false, 2, 3⟩ [15, 66, 63]
      rfl (by decide)).1 (by decide)
    rw [h]
    decide
  · exact (@claim_C7 [2, 3, 15, 66, 64] [] ⟨0, false, 2, 3⟩ [15, 66, 64]
      rfl (by decide)).2 (by decide)

/-! ## Absence of the version-check error kind (`ErrorKind::Tag`)

Only the two `error_if!(_, ErrorKind::Tag)` version checks of the Kerberos
layer can produce `PErr.nomTag`; every other building block cannot.  These
lemmas make that precise. -/

def NoNomTag {α} (p : Parser α) : Prop := ∀ i, p i ≠ .err .nomTag

theorem noNT_ppure {α} (v : α) : NoNomTag (ppure v) := by
  intro i h
  simp [ppure] at h

theorem noNT_perr {α} {e : PErr} (he : e ≠ .nomTag) : NoNomTag (perr (α := α) e) := by
  intro i h
  simp only [perr] at h
  injection h with h2
  exact he h2

theorem noNT_pbind {α β} {p : Parser α} {f : α → Parser β}
    (hp : NoNomTag p) (hf : ∀ v, NoNomTag (f v)) : NoNomTag (pbind p f) := by
  intro i h
  simp only [pbind] at h
  cases hp2 : p i with
  | done r v =>
    rw [hp2] at h
    exact hf v r h
  | err e =>
    rw [hp2] at h
    injection h with h2
    subst h2
    exact hp i hp2
  | incomplete =>
    rw [hp2] at h
    exact absurd h (by simp)

theorem noNT_pmap {α β} {p : Parser α} {f : α → β}
    (hp : NoNomTag p) : NoNomTag (pmap p f) := by
  intro i h
  simp only [pmap] at h
  cases hp2 : p i with
  | done r v => rw [hp2] at h; exact absurd h (by simp)
  | err e =>
    rw [hp2] at h
    injection h with h2
    subst h2
    exact hp i hp2
  | incomplete => rw [hp2] at h; exact absurd h (by simp)

theorem noNT_popt {α} (p : Parser α) : NoNomTag (popt p) := by
  intro i h
  simp only [popt] at h
  cases hp2 : p i <;> rw [hp2] at h <;> exact absurd h (by simp)

theorem noNT_pcomplete {α} {p : Parser α} (hp : NoNomTag p) :
    NoNomTag (pcomplete p) := by
  intro i h
  simp only [pcomplete] at h
  cases hp2 : p i with
  | done r v => rw [hp2] at h; exact absurd h (by simp)
  | err e =>
    rw [hp2] at h
    injection h with h2
    subst h2
    exact hp i hp2
  | incomplete => rw [hp2] at h; exact absurd h (by simp)

theorem noNT_eofP : NoNomTag eofP := by
  intro i h
  cases i <;> simp [eofP] at h

theorem noNT_error_if {b : Bool} {e : PErr} (he : e ≠ .nomTag) :
    NoNomTag (error_if b e) := by
  intro i h
  simp only [error_if] at h
  split at h
  · injection h with h2
    exact he h2
  · exact absurd h (by simp)

theorem noNT_takeN (n : Nat) : NoNomTag (takeN n) := by
  intro i h
  simp only [takeN] at h
  split at h <;> exact absurd h (by simp)

theorem noNT_flat_take {α} (n : Nat) {p : Parser α} (hp : NoNomTag p) :
    NoNomTag (flat_take n p) := by
  intro i h
  simp only [flat_take] at h
  split at h
  · exact absurd h (by simp)
  · cases hp2 : p (i.take n) with
    | done r v => rw [hp2] at h; exact absurd h (by simp)
    | err e =>
      rw [hp2] at h
      injection h with h2
      subst h2
      exact hp _ hp2
    | incomplete => rw [hp2] at h; exact absurd h (by simp)

theorem noNT_map_res_der {α β} {p : Parser α} {f : α → Except DerError β}
    (hp : NoNomTag p) : NoNomTag (map_res_der p f) := by
  intro i h
  simp only [map_res_der] at h
  cases hp2 : p i with
  | done r v =>
    cases hf : f v <;> simp [hp2, hf] at h
  | err e =>
    rw [hp2] at h
    injection h with h2
    subst h2
    exact hp i hp2
  | incomplete => rw [hp2] at h; exact absurd h (by simp)

theorem noNT_map_res_str {α β} {p : Parser α} {f : α → Except String β}
    (hp : NoNomTag p) : NoNomTag (map_res_str p f) := by
  intro i h
  simp only [map_res_str] at h
  cases hp2 : p i with
  | done r v =>
    cases hf : f v <;> simp [hp2, hf] at h
  | err e =>
    rw [hp2] at h
    injection h with h2
    subst h2
    exact hp i hp2
  | incomplete => rw [hp2] at h; exact absurd h (by simp)

theorem noNT_header : NoNomTag der_read_element_header := by
  intro i h
  match i with
  | [] => simp [der_read_element_header] at h
  | [b] => simp [der_read_element_header] at h
  | b :: l :: r =>
    simp only [der_read_element_header] at h
    split_ifs at h <;> simp_all

theorem noNT_many0F {α} {p : Parser α} (hp : NoNomTag p) (fuel : Nat) :
    NoNomTag (many0F p fuel) := by
  induction fuel with
  | zero => intro i h; simp [many0F] at h
  | succ fuel ih =>
    intro i h
    match i with
    | [] => simp [many0F] at h
    | b :: t =>
      simp only [many0F] at h
      cases hp2 : p (b :: t) with
      | done r v =>
        simp only [hp2] at h
        split at h
        · exact absurd h (by simp)
        · cases hm : many0F p fuel r with
          | done r2 vs => simp [hm] at h
          | err e =>
            simp only [hm] at h
            injection h with h2
            subst h2
            exact ih r hm
          | incomplete => simp [hm] at h
      | err e => simp [hp2] at h
      | incomplete => simp [hp2] at h

theorem noNT_many0 {α} {p : Parser α} (hp : NoNomTag p) : NoNomTag (many0 p) := by
  intro i h
  exact noNT_many0F hp (i.length + 1) i h

theorem noNT_many1 {α} {p : Parser α} (hp : NoNomTag p) : NoNomTag (many1 p) := by
  intro i h
  simp only [many1] at h
  cases hp2 : p i with
  | done r v =>
    simp only [hp2] at h
    cases hm : many0 p r with
    | done r2 vs => simp [hm] at h
    | err e =>
      simp only [hm] at h
      injection h with h2
      subst h2
      exact noNT_many0 hp r hm
    | incomplete => simp [hm] at h
  | err e => simp [hp2] at h
  | incomplete => simp [hp2] at h

theorem noNT_parse_der_content (t : Nat) (mk : List Nat → DerContent) :
    NoNomTag (parse_der_content t mk) :=
  noNT_pbind noNT_header fun _ =>
    noNT_pbind (noNT_error_if (by decide)) fun _ => noNT_pmap (noNT_takeN _)

theorem noNT_parse_der_integer : NoNomTag parse_der_integer :=
  noNT_parse_der_content 2 .integer

theorem noNT_parse_der_octetstring : NoNomTag parse_der_octetstring :=
  noNT_parse_der_content 4 .octetString

theorem noNT_parse_der_generalstring : NoNomTag parse_der_generalstring :=
  noNT_parse_der_content 27 .generalString

theorem noNT_parse_der_generalizedtime : NoNomTag parse_der_generalizedtime :=
  noNT_parse_der_content 24 .genTime

theorem noNT_parse_der_bitstring : NoNomTag parse_der_bitstring :=
  noNT_pbind noNT_header fun hdr =>
    noNT_pbind (noNT_error_if (by decide)) fun _ =>
      noNT_pbind (noNT_takeN hdr.len) fun c => by
        cases c with
        | nil => exact noNT_perr (by decide)
        | cons b bs => exact noNT_ppure _

theorem noNT_parse_der : NoNomTag parse_der :=
  noNT_pbind noNT_header fun _ => noNT_pmap (noNT_takeN _)

theorem noNT_parse_der_tagged {α} (t : Nat) {p : Parser α} (hp : NoNomTag p) :
    NoNomTag (parse_der_tagged t p) :=
  noNT_pbind noNT_header fun hdr =>
    noNT_pbind (noNT_error_if (by decide)) fun _ => noNT_flat_take hdr.len hp

theorem noNT_parse_der_struct {α} {p : Parser α} (hp : NoNomTag p) :
    NoNomTag (parse_der_struct p) :=
  noNT_pbind noNT_header fun hdr =>
    noNT_pbind (noNT_error_if (by decide)) fun _ =>
      noNT_pmap (noNT_flat_take hdr.len hp)

theorem noNT_parse_der_application {α} (t : Nat) {p : Parser α} (hp : NoNomTag p) :
    NoNomTag (parse_der_application t p) :=
  noNT_pbind noNT_header fun hdr =>
    noNT_pbind (noNT_error_if (by decide)) fun _ =>
      noNT_pbind (noNT_error_if (by decide)) fun _ =>
        noNT_pmap (noNT_flat_take hdr.len hp)

theorem noNT_parse_der_int32 : NoNomTag parse_der_int32 :=
  noNT_map_res_der noNT_parse_der_integer

theorem noNT_parse_der_uint32 : NoNomTag parse_der_uint32 :=
  noNT_map_res_der noNT_parse_der_integer

theorem noNT_parse_kerberos_string : NoNomTag parse_kerberos_string :=
  noNT_map_res_str noNT_parse_der_generalstring

theorem noNT_parse_kerberos_string_sequence : NoNomTag parse_kerberos_string_sequence :=
  noNT_map_res_str (noNT_parse_der_struct (noNT_many0 noNT_parse_kerberos_string))

theorem noNT_parse_krb5_realm : NoNomTag parse_krb5_realm :=
  noNT_pmap noNT_parse_kerberos_string

theorem noNT_parse_krb5_principalname : NoNomTag parse_krb5_principalname :=
  noNT_map_res_str (noNT_parse_der_struct
    (noNT_pbind (noNT_parse_der_tagged 0 noNT_parse_der_int32) fun _ =>
      noNT_pmap (noNT_parse_der_tagged 1 noNT_parse_kerberos_string_sequence)))

/-! ## Claim C1: the Ticket version check -/

/-- The initial segment of `parse_krb5_ticket` up to and including the
decoding of the `tkt_vno` field: APPLICATION 1 wrapper, SEQUENCE header,
`[0]`-tagged UInt32. -/
def parse_krb5_ticket_vno : Parser Nat :=
  pmap (parse_der_application 1 (parse_der_struct (parse_der_tagged 0 parse_der_uint32)))
    (fun t => t.2.2)

/-- Relation between a full parser and a prefix parser: the full parse hits
the version-check error exactly when the prefix decodes a version value
(under extraction `g`) other than 5. -/
def VnoRel {α β} (P : Parser α) (Q : Parser β) (g : β → Nat) : Prop :=
  ∀ j, P j = .err .nomTag ↔ ∃ r v, Q j = .done r v ∧ g v ≠ 5

theorem vr_pmap_lhs {α α2 β} {P : Parser α} {Q : Parser β} {g : β → Nat}
    (f : α → α2) (h : VnoRel P Q g) : VnoRel (pmap P f) Q g := by
  intro j
  rw [← h j]
  cases hp : P j <;> simp [pmap, hp]

theorem vr_pmap_rhs {α β β2} {P : Parser α} {Q : Parser β} (f : β → β2)
    {g : β2 → Nat} (h : VnoRel P Q (fun v => g (f v))) :
    VnoRel P (pmap Q f) g := by
  intro j
  rw [h j]
  cases hq : Q j <;> simp [pmap, hq] <;> aesop

theorem vr_ppure_lhs {α β} {P : Parser α} {Q : Parser β} {g : β → Nat}
    (h : VnoRel P Q g) : VnoRel (pbind P (fun v => ppure v)) Q g := by
  intro j
  rw [← h j]
  cases hp : P j <;> simp [pbind, ppure, hp]

theorem vr_flat {α β} {P : Parser α} {Q : Parser β} {g : β → Nat} (n : Nat)
    (h : VnoRel P Q g) : VnoRel (flat_take n P) (flat_take n Q) g := by
  intro j
  by_cases hl : j.length < n
  · simp [flat_take, hl]
  · have hin := h (j.take n)
    simp only [flat_take, if_neg hl]
    cases hp : P (j.take n) <;> cases hq : Q (j.take n) <;>
      simp only [hp, hq] at hin ⊢ <;> simp_all <;> aesop

theorem vr_err_if {α β} {P : Parser α} {Q : Parser β} {g : β → Nat}
    (b : Bool) {e : PErr} (he : e ≠ .nomTag) (h : VnoRel P Q g) :
    VnoRel (pbind (error_if b e) fun _ => P) (pbind (error_if b e) fun _ => Q) g := by
  intro j
  cases b
  · simpa [pbind, error_if] using h j
  · simp [pbind, error_if, he]

theorem vr_header {α β} {F : DerHeader → Parser α} {G : DerHeader → Parser β}
    {g : β → Nat} (h : ∀ hdr, VnoRel (F hdr) (G hdr) g) :
    VnoRel (pbind der_read_element_header F) (pbind der_read_element_header G) g := by
  intro j
  cases hh : der_read_element_header j with
  | done r hdr => simpa [pbind, hh] using h hdr r
  | err e =>
    have he : e ≠ .nomTag := fun hc => noNT_header j (hc ▸ hh)
    simp [pbind, hh, he]
  | incomplete => simp [pbind, hh]

theorem vr_base {β} {tail : Nat → Parser β} (htail : ∀ no, NoNomTag (tail no)) :
    VnoRel
      (pbind (parse_der_tagged 0 parse_der_uint32) fun no =>
        pbind (error_if (no ≠ 5) .nomTag) fun _ => tail no)
      (parse_der_tagged 0 parse_der_uint32) (fun v => v) := by
  intro j
  cases hv : parse_der_tagged 0 parse_der_uint32 j with
  | err e =>
    have he : e ≠ .nomTag :=
      fun hc => noNT_parse_der_tagged 0 noNT_parse_der_uint32 j (hc ▸ hv)
    simp [pbind, hv, he]
  | incomplete => simp [pbind, hv]
  | done r v =>
    by_cases h5 : v = 5
    · subst h5
      simp only [pbind, hv, error_if]
      simp only [ne_eq, not_true_eq_false, decide_False, if_false, ite_false]
      constructor
      · intro hc
        exact absurd hc (htail 5 r)
      · rintro ⟨r2, v2, hd, hv2⟩
        injection hd with h1 h2
        exact absurd h2.symm hv2
    · simp only [pbind, hv, error_if, h5]
      simp [h5]
      exact ⟨r, v, ⟨rfl, rfl⟩, h5⟩

/-- C1: `parse_krb5_ticket` fails with the version-mismatch error (the
`error_if!(no != 5, ErrorKind::Tag)` check, embedded as `PErr.nomTag`, the
only producer of that error kind in the Ticket decoder) if and only if the
`tkt_vno` field decodes to a value other than 5 — independent of whether
the rest of the structure is well-formed; when the decoded value is 5 the
check passes and that error cannot arise, decoding proceeding to the
remaining fields. -/
theorem claim_C1 (i : List Nat) :
    parse_krb5_ticket i = .err .nomTag ↔
      ∃ r v, parse_krb5_ticket_vno i = .done r v ∧ v ≠ 5 := by
  have htail : ∀ no : Nat, NoNomTag
      (pbind (parse_der_tagged 1 parse_krb5_realm) fun r =>
        pbind (parse_der_tagged 2 parse_krb5_principalname) fun s =>
          pmap (map_res_der parse_der (fun x => x.as_slice)) fun e =>
            Ticket.mk no r s e) := fun no =>
    noNT_pbind (noNT_parse_der_tagged 1 noNT_parse_krb5_realm) fun r =>
      noNT_pbind (noNT_parse_der_tagged 2 noNT_parse_krb5_principalname) fun s =>
        noNT_pmap (noNT_map_res_der noNT_parse_der)
  have hrel : VnoRel parse_krb5_ticket parse_krb5_ticket_vno (fun v => v) := by
    simp only [parse_krb5_ticket, parse_krb5_ticket_vno, parse_der_application,
      parse_der_struct]
    apply vr_pmap_rhs
    apply vr_pmap_lhs
    apply vr_header
    intro hdr
    apply vr_err_if _ (by decide)
    apply vr_err_if _ (by decide)
    apply vr_pmap_rhs
    apply vr_pmap_lhs
    apply vr_flat
    apply vr_ppure_lhs
    apply vr_header
    intro hdr2
    apply vr_err_if _ (by decide)
    apply vr_pmap_rhs
    apply vr_pmap_lhs
    apply vr_flat
    exact vr_base htail
  exact hrel i

/-! ## Claim C5: the KRB-ERROR hard checks -/

/-- The initial segment of `parse_krb_error` up to and including `pvno`. -/
def parse_krb_error_pvno : Parser Nat :=
  pmap (parse_der_application 30 (parse_der_struct (parse_der_tagged 0 parse_der_uint32)))
    (fun t => t.2.2)

/-- The initial segment of `parse_krb_error` up to and including
`msg_type` (with the `pvno == 5` check already passed). -/
def parse_krb_error_pvno_msg : Parser (Nat × Nat) :=
  pmap (parse_der_application 30 (parse_der_struct (
    pbind (parse_der_tagged 0 parse_der_uint32) fun pvno =>
    pbind (error_if (pvno ≠ 5) .nomTag) fun _ =>
    pmap (parse_der_tagged 1 parse_der_uint32) fun msgtype => (pvno, msgtype))))
    (fun t => t.2.2)

/-- One-directional version of `VnoRel`: whenever the prefix parser `Q`
decodes a bad value, the full parser `P` fails with the hard-check error. -/
def VnoImp {α β} (P : Parser α) (Q : Parser β) (bad : β → Prop) : Prop :=
  ∀ j r v, Q j = .done r v → bad v → P j = .err .nomTag

theorem vi_pmap_rhs {α β β2} {P : Parser α} {Q : Parser β} (f : β → β2)
    {bad : β2 → Prop} (h : VnoImp P Q (fun v => bad (f v))) :
    VnoImp P (pmap Q f) bad := by
  intro j r v hq hb
  cases hqq : Q j with
  | done r0 v0 =>
    simp only [pmap, hqq] at hq
    injection hq with h1 h2
    exact h j r0 v0 hqq (by show bad (f v0); rw [h2]; exact hb)
  | err e => simp [pmap, hqq] at hq
  | incomplete => simp [pmap, hqq] at hq

theorem vi_pmap_lhs {α α2 β} {P : Parser α} {Q : Parser β} (f : α → α2)
    {bad : β → Prop} (h : VnoImp P Q bad) : VnoImp (pmap P f) Q bad := by
  intro j r v hq hb
  have hp := h j r v hq hb
  simp [pmap, hp]

theorem vi_flat {α β} {P : Parser α} {Q : Parser β} {bad : β → Prop} (n : Nat)
    (h : VnoImp P Q bad) : VnoImp (flat_take n P) (flat_take n Q) bad := by
  intro j r v hq hb
  by_cases hl : j.length < n
  · simp [flat_take, hl] at hq
  · simp only [flat_take, if_neg hl] at hq ⊢
    cases hqq : Q (j.take n) with
    | done r0 v0 =>
      simp only [hqq] at hq
      injection hq with h1 h2
      have hp := h _ r0 v0 hqq (by rw [h2]; exact hb)
      simp [hp]
    | err e => simp [hqq] at hq
    | incomplete => simp [hqq] at hq

theorem vi_err_if {α β} {P : Parser α} {Q : Parser β} {bad : β → Prop}
    {b : Bool} {e : PErr} (h : VnoImp P Q bad) :
    VnoImp (pbind (error_if b e) fun _ => P) (pbind (error_if b e) fun _ => Q) bad := by
  intro j r v hq hb
  cases b
  · simp only [pbind, error_if, Bool.false_eq_true, if_false] at hq ⊢
    exact h j r v hq hb
  · simp [pbind, error_if] at hq

theorem vi_header {α β} {F : DerHeader → Parser α} {G : DerHeader → Parser β}
    {bad : β → Prop} (h : ∀ hdr, VnoImp (F hdr) (G hdr) bad) :
    VnoImp (pbind der_read_element_header F) (pbind der_read_element_header G) bad := by
  intro j r v hq hb
  cases hh : der_read_element_header j with
  | done r0 hdr =>
    simp only [pbind, hh] at hq ⊢
    exact h hdr r0 r v hq hb
  | err e => simp [pbind, hh] at hq
  | incomplete => simp [pbind, hh] at hq

theorem vi_ppure_lhs {α β} {P : Parser α} {Q : Parser β} {bad : β → Prop}
    (h : VnoImp P Q bad) : VnoImp (pbind P (fun v => ppure v)) Q bad := by
  intro j r v hq hb
  have hp := h j r v hq hb
  simp [pbind, hp]

theorem vi_base1 {β} {tail : Nat → Parser β} :
    VnoImp
      (pbind (parse_der_tagged 0 parse_der_uint32) fun no =>
        pbind (error_if (no ≠ 5) .nomTag) fun _ => tail no)
      (parse_der_tagged 0 parse_der_uint32) (fun v => v ≠ 5) := by
  intro j r v hq hb
  simp [pbind, hq, error_if, hb]

theorem vi_base2 {β} {tail2 : Nat → Nat → Parser β} :
    VnoImp
      (pbind (parse_der_tagged 0 parse_der_uint32) fun no =>
        pbind (error_if (no ≠ 5) .nomTag) fun _ =>
          pbind (parse_der_tagged 1 parse_der_uint32) fun mt =>
            pbind (error_if (mt ≠ 30) .nomTag) fun _ => tail2 no mt)
      (pbind (parse_der_tagged 0 parse_der_uint32) fun no =>
        pbind (error_if (no ≠ 5) .nomTag) fun _ =>
          pmap (parse_der_tagged 1 parse_der_uint32) fun mt => (no, mt))
      (fun p => p.2 ≠ 30) := by
  intro j r p hq hb
  cases h0 : parse_der_tagged 0 parse_der_uint32 j with
  | done r1 v =>
    by_cases hv5 : v = 5
    · subst hv5
      simp only [pbind, h0, error_if] at hq ⊢
      simp only [ne_eq, not_true_eq_false, decide_False, Bool.false_eq_true,
        if_false, ite_false] at hq ⊢
      cases h1 : parse_der_tagged 1 parse_der_uint32 r1 with
      | done r2 w =>
        simp only [pmap, h1] at hq
        injection hq with hr hp2
        rw [← hp2] at hb
        simp only [pbind, h1]
        simp [error_if, hb]
      | err e => simp [pmap, h1] at hq
      | incomplete => simp [pmap, h1] at hq
    · simp [pbind, h0, error_if, hv5] at hq
  | err e => simp [pbind, h0] at hq
  | incomplete => simp [pbind, h0] at hq

/-- C5: for every KRB-ERROR input on which the `pvno` field decodes to a
value other than 5, or `pvno` decodes to 5 and `msg_type` decodes to a
value other than 30, `parse_krb_error` fails with the fatal hard-check
error (`PErr.nomTag`, the source's `error_if!(_, ErrorKind::Tag)` placed
immediately after each of the two fields is decoded), regardless of all
the remaining fields. -/
theorem claim_C5 :
    (∀ i r v, parse_krb_error_pvno i = .done r v → v ≠ 5 →
      parse_krb_error i = .err .nomTag) ∧
    (∀ i r p, parse_krb_error_pvno_msg i = .done r p → p.2 ≠ 30 →
      parse_krb_error i = .err .nomTag) := by
  constructor
  · have h : VnoImp parse_krb_error parse_krb_error_pvno (fun v => v ≠ 5) := by
      simp only [parse_krb_error, parse_krb_error_pvno, parse_der_application,
        parse_der_struct]
      apply vi_pmap_rhs
      apply vi_pmap_lhs
      apply vi_header
      intro hdr
      apply vi_err_if
      apply vi_err_if
      apply vi_pmap_rhs
      apply vi_pmap_lhs
      apply vi_flat
      apply vi_ppure_lhs
      apply vi_header
      intro hdr2
      apply vi_err_if
      apply vi_pmap_rhs
      apply vi_pmap_lhs
      apply vi_flat
      exact vi_base1
    exact h
  · have h : VnoImp parse_krb_error parse_krb_error_pvno_msg (fun p => p.2 ≠ 30) := by
      simp only [parse_krb_error, parse_krb_error_pvno_msg, parse_der_application,
        parse_der_struct]
      apply vi_pmap_rhs
      apply vi_pmap_lhs
      apply vi_header
      intro hdr
      apply vi_err_if
      apply vi_err_if
      apply vi_pmap_rhs
      apply vi_pmap_lhs
      apply vi_flat
      apply vi_ppure_lhs
      apply vi_header
      intro hdr2
      apply vi_err_if
      apply vi_pmap_rhs
      apply vi_pmap_lhs
      apply vi_flat
      exact vi_base2
    exact h

/-! ## Concrete message encodings used as witnesses -/

/-- DER bytes of `PrincipalName { name-type 1, name-string ["A"] }`. -/
def pnameBytes : List Nat := [48, 12, 160, 3, 2, 1, 1, 161, 5, 48, 3, 27, 1, 65]

/-- A KRB-ERROR encoding, parameterised by the `pvno` and `msg-type`
content bytes; all other fields are well-formed. -/
def krbErrBytes (p m : Nat) : List Nat :=
  [126, 48, 48, 46, 160, 3, 2, 1, p, 161, 3, 2, 1, m,
   164, 3, 24, 1, 48, 165, 3, 2, 1, 0, 166, 3, 2, 1, 6,
   169, 3, 27, 1, 65, 170, 14] ++ pnameBytes

/-- A Ticket encoding, parameterised by the `tkt-vno` content byte.  The
fourth field is the TLV `47 03 01 02 03`: an APPLICATION-class primitive
tag 7 whose content is the three bytes `01 02 03` — not a context-[3] tag
and not an EncryptedData encoding. -/
def ticketBytes (vno : Nat) : List Nat :=
  [97, 33, 48, 31, 160, 3, 2, 1, vno, 161, 3, 27, 1, 65, 162, 14] ++
    pnameBytes ++ [71, 3, 1, 2, 3]

/-- Witness for C5: `pvno = 4` and `(pvno, msg_type) = (5, 29)` both make
`parse_krb_error` fail with the hard-check error. -/
theorem claim_C5_witness :
    parse_krb_error (krbErrBytes 4 30) = .err .nomTag ∧
    parse_krb_error (krbErrBytes 5 29) = .err .nomTag :=
  ⟨claim_C5.1 (krbErrBytes 4 30) [] 4 (by decide) (by decide),
   claim_C5.2 (krbErrBytes 5 29) [] (5, 29) (by decide) (by decide)⟩

/-- A successful KRB-ERROR decode with `pvno = 5`, `msg_type = 30`
(sanity check that the C5 hypotheses are not vacuous at valid inputs). -/
theorem krb_error_valid_input_decodes :
    ∃ e : KrbError, parse_krb_error (krbErrBytes 5 30) = .done [] e ∧
      e.pvno = 5 ∧ e.msg_type = 30 ∧ e.error_code = 6 := by
  refine ⟨KrbError.mk 5 30 none none (DerObject.mk ⟨0, false, 24, 1⟩ (.genTime [48]))
    0 6 none none (Realm.mk [65]) (PrincipalName.mk 1 [[65]]) none none,
    by decide, by decide, by decide, by decide⟩

/-- Sanity examples for the Ticket version check: `tkt_vno = 4` gives the
version error, and its prefix parser observes the value 4. -/
theorem ticket_version_examples :
    parse_krb5_ticket (ticketBytes 4) = .err .nomTag ∧
    parse_krb5_ticket_vno (ticketBytes 4) = .done [] 4 ∧
    parse_krb5_ticket_vno (ticketBytes 5) = .done [] 5 := by
  decide

/-- C3 (code bug): a Ticket whose fourth field is an APPLICATION-7
primitive TLV — not a context-[3] tag and not an EncryptedData structure —
decodes successfully, and the resulting `enc_part` is the raw content byte
view `[1, 2, 3]` of that TLV.  `parse_krb5_ticket` reads the fourth field
with the generic `parse_der` and `as_slice`, decoding no EncryptedData and
checking no tag, although the `Ticket` declaration in `krb5.rs` types
`enc_part` as (a copy-on-write) `EncryptedData`. -/
theorem claim_C3_code_divergence :
    parse_krb5_ticket (ticketBytes 5) =
      .done [] (Ticket.mk 5 (Realm.mk [65]) (PrincipalName.mk 1 [[65]]) [1, 2, 3]) := by
  decide

/-! ## Field-level encoding lemmas -/

theorem encTLV_append (idb : Nat) (c ext : List Nat) :
    encTLV idb c ++ ext = idb :: encLen c.length ++ c ++ ext := by
  simp [encTLV, List.append_assoc]

theorem encLen_length {n : Nat} (h : n < 2 ^ 64) : (encLen n).length ≤ 9 := by
  by_cases hn : n < 128
  · simp [encLen, hn]
  · have := beBytes_length_le 8 n (by norm_num at h ⊢; omega)
    simp [encLen, hn]
    omega

theorem encTLV_length (idb : Nat) {c : List Nat} (h : c.length < 2 ^ 64) :
    (encTLV idb c).length ≤ c.length + 10 := by
  have := encLen_length h
  simp [encTLV, List.length_append]
  omega

theorem encTLV_length_short (idb : Nat) {c : List Nat} (h : c.length < 128) :
    (encTLV idb c).length = c.length + 2 := by
  simp [encTLV, encLen, h, List.length_append]

theorem parse_der_int32_enc (c ext : List Nat) (hok : ByteOk c)
    (h1 : 1 ≤ c.length) (h4 : c.length ≤ 4) :
    parse_der_int32 (encTLV 2 c ++ ext) = .done ext (twosBE c) := by
  have hobj := parse_der_content_enc 2 2 .integer c ext (by omega) rfl
  rw [encTLV_append]
  exact (int32_of_integer hobj hok).1 ⟨h1, h4⟩

theorem parse_der_uint32_enc (c ext : List Nat) (hok : ByteOk c)
    (hv : beNat c ≤ 0xFFFFFFFF) (hsz : c.length < 2 ^ 64) :
    parse_der_uint32 (encTLV 2 c ++ ext) = .done ext (beNat c) := by
  have hobj := parse_der_content_enc 2 2 .integer c ext hsz rfl
  rw [encTLV_append]
  simp only [parse_der_uint32, parse_der_integer, map_res_der, hobj,
    as_u32_ok _ hok hv]

/-- An explicitly tagged Int32 field. -/
theorem field_int32 (t idb : Nat) (e ext : List Nat) (hok : ByteOk e)
    (h1 : 1 ≤ e.length) (h4 : e.length ≤ 4) (ht : idb % 32 = t) :
    parse_der_tagged t parse_der_int32 (encTLV idb (encTLV 2 e) ++ ext) =
      .done ext (twosBE e) := by
  rw [encTLV_append]
  rw [parse_der_tagged_enc t idb _ _ ext
    (by rw [encTLV_length_short 2 (by omega)]; omega) ht]
  have h := parse_der_int32_enc e [] hok h1 h4
  rw [List.append_nil] at h
  simp only [h]

/-- An explicitly tagged UInt32 field. -/
theorem field_uint32 (t idb : Nat) (kb ext : List Nat) (hok : ByteOk kb)
    (hv : beNat kb ≤ 0xFFFFFFFF) (hsz : kb.length < 2 ^ 60) (ht : idb % 32 = t) :
    parse_der_tagged t parse_der_uint32 (encTLV idb (encTLV 2 kb) ++ ext) =
      .done ext (beNat kb) := by
  rw [encTLV_append]
  rw [parse_der_tagged_enc t idb _ _ ext
    (by have := encTLV_length 2 (c := kb) (by norm_num at hsz ⊢; omega);
        norm_num at hsz ⊢; omega) ht]
  have h := parse_der_uint32_enc kb [] hok hv (by norm_num at hsz ⊢; omega)
  rw [List.append_nil] at h
  simp only [h]

/-- An explicitly tagged OCTET STRING field read through `as_slice`. -/
theorem field_octet (t idb : Nat) (c ext : List Nat) (hsz : c.length < 2 ^ 60)
    (ht : idb % 32 = t) :
    map_res_der (parse_der_tagged t parse_der_octetstring) (fun x => x.as_slice)
      (encTLV idb (encTLV 4 c) ++ ext) = .done ext c := by
  have hsz4 : (encTLV 4 c).length < 2 ^ 64 := by
    have := encTLV_length 4 (c := c) (by norm_num at hsz ⊢; omega)
    norm_num at hsz ⊢
    omega
  have hobj : parse_der_octetstring (encTLV 4 c) =
      .done [] (DerObject.mk ⟨0, false, 4, c.length⟩ (.octetString c)) := by
    have h := parse_der_content_enc 4 4 .octetString c []
      (by norm_num at hsz ⊢; omega) rfl
    have he : encTLV 4 c = 4 :: encLen c.length ++ c ++ [] := by
      simp [encTLV]
    rw [parse_der_octetstring, he]
    exact h
  simp only [map_res_der]
  rw [encTLV_append]
  rw [parse_der_tagged_enc t idb _ _ ext hsz4 ht]
  simp only [hobj]
  rfl

/-! ## Claim C8: EncryptedData shape -/

/-- The optional `kvno [1]` field encoding. -/
def encOptKvno : Option (List Nat) → List Nat
  | none => []
  | some kb => encTLV 161 (encTLV 2 kb)

/-- A DER encoding of an EncryptedData value: SEQUENCE of `[0]` etype
(INTEGER content `e`), optional `[1]` kvno (INTEGER content `kb`), `[2]`
cipher (OCTET STRING content `c`), and `junk` extra bytes kept inside the
sequence after the cipher field. -/
def encEncryptedData (e : List Nat) (k : Option (List Nat)) (c junk : List Nat) :
    List Nat :=
  encTLV 48 (encTLV 160 (encTLV 2 e) ++ encOptKvno k ++ encTLV 162 (encTLV 4 c) ++ junk)

/-- A wrapper tag whose number does not match is rejected with the DER tag
error (used for an absent optional field). -/
theorem field_wrong_tag (t idb : Nat) {α} (p : Parser α) (c ext : List Nat)
    (hsz : c.length < 2 ^ 64) (h : idb % 32 ≠ t) :
    parse_der_tagged t p (encTLV idb c ++ ext) = .err .derTag := by
  rw [encTLV_append]
  simp only [parse_der_tagged, pbind]
  rw [show idb :: encLen c.length ++ c ++ ext =
    idb :: encLen c.length ++ (c ++ ext) by simp]
  rw [der_header_enc idb c.length (c ++ ext) hsz]
  simp [error_if, h]

/-- Successful EncryptedData decode with the optional kvno present. -/
theorem parse_encrypted_enc_some :
    ∀ e kb c ext, ByteOk e → 1 ≤ e.length → e.length ≤ 4 → ByteOk kb →
      beNat kb ≤ 0xFFFFFFFF → kb.length < 2 ^ 60 → c.length < 2 ^ 60 →
      parse_encrypted (encEncryptedData e (some kb) c [] ++ ext) =
        .done ext (EncryptedData.mk (twosBE e) (some (beNat kb)) c) := by
  intro e kb c ext hok h1 h4 hokk hvk hszk hszc
  have le2 : (encTLV 2 e).length = e.length + 2 := encTLV_length_short 2 (by omega)
  have lA : (encTLV 160 (encTLV 2 e)).length = e.length + 4 := by
    rw [encTLV_length_short 160 (by rw [le2]; omega), le2]
  have lK2 : (encTLV 2 kb).length ≤ kb.length + 10 :=
    encTLV_length 2 (by norm_num at hszk ⊢; omega)
  have lK : (encTLV 161 (encTLV 2 kb)).length ≤ kb.length + 20 := by
    have := encTLV_length 161 (c := encTLV 2 kb) (by norm_num at hszk lK2 ⊢; omega)
    omega
  have lC2 : (encTLV 4 c).length ≤ c.length + 10 :=
    encTLV_length 4 (by norm_num at hszc ⊢; omega)
  have lC : (encTLV 162 (encTLV 4 c)).length ≤ c.length + 20 := by
    have := encTLV_length 162 (c := encTLV 4 c) (by norm_num at hszc lC2 ⊢; omega)
    omega
  have hA := field_int32 0 160 e
    (encTLV 161 (encTLV 2 kb) ++ encTLV 162 (encTLV 4 c)) hok h1 h4 rfl
  have hK := field_uint32 1 161 kb
    (encTLV 162 (encTLV 4 c)) hokk hvk hszk rfl
  have hC := field_octet 2 162 c [] hszc rfl
  rw [List.append_nil] at hC
  simp only [parse_encrypted, encEncryptedData, encOptKvno, pmap]
  rw [encTLV_append 48]
  rw [parse_der_struct_enc 48 _ _ ext
    (by simp only [List.length_append, List.append_nil, List.length_nil]
        norm_num at hszk hszc ⊢
        omega)
    (by norm_num)]
  simp only [List.append_nil, List.append_assoc]
  simp only [pbind, popt, hA, hK, hC, eofP, ppure]

/-- Successful EncryptedData decode with the optional kvno absent. -/
theorem parse_encrypted_enc_none :
    ∀ e c ext, ByteOk e → 1 ≤ e.length → e.length ≤ 4 → c.length < 2 ^ 60 →
      parse_encrypted (encEncryptedData e none c [] ++ ext) =
        .done ext (EncryptedData.mk (twosBE e) none c) := by
  intro e c ext hok h1 h4 hszc
  have le2 : (encTLV 2 e).length = e.length + 2 := encTLV_length_short 2 (by omega)
  have lA : (encTLV 160 (encTLV 2 e)).length = e.length + 4 := by
    rw [encTLV_length_short 160 (by rw [le2]; omega), le2]
  have lC2 : (encTLV 4 c).length ≤ c.length + 10 :=
    encTLV_length 4 (by norm_num at hszc ⊢; omega)
  have lC : (encTLV 162 (encTLV 4 c)).length ≤ c.length + 20 := by
    have := encTLV_length 162 (c := encTLV 4 c) (by norm_num at hszc lC2 ⊢; omega)
    omega
  have hA := field_int32 0 160 e
    (encTLV 162 (encTLV 4 c)) hok h1 h4 rfl
  have hKn := field_wrong_tag 1 162 parse_der_uint32
    (encTLV 4 c) [] (by norm_num at hszc lC2 ⊢; omega) (by norm_num)
  rw [List.append_nil] at hKn
  have hC := field_octet 2 162 c [] hszc rfl
  rw [List.append_nil] at hC
  simp only [parse_encrypted, encEncryptedData, encOptKvno, pmap]
  rw [encTLV_append 48]
  rw [parse_der_struct_enc 48 _ _ ext
    (by simp only [List.length_append, List.append_nil, List.length_nil]
        norm_num at hszc ⊢
        omega)
    (by norm_num)]
  simp only [List.append_nil, List.append_assoc]
  simp only [pbind, popt, hA, hKn, hC, eofP, ppure]

/-- Trailing bytes inside the EncryptedData sequence are rejected by `eof!`. -/
theorem parse_encrypted_enc_trailing :
    ∀ e kb c junk ext, ByteOk e → 1 ≤ e.length → e.length ≤ 4 → ByteOk kb →
      beNat kb ≤ 0xFFFFFFFF → kb.length < 2 ^ 60 → c.length < 2 ^ 60 →
      junk ≠ [] → junk.length < 2 ^ 60 →
      parse_encrypted (encEncryptedData e (some kb) c junk ++ ext) =
        .err .eofFail := by
  intro e kb c junk ext hok h1 h4 hokk hvk hszk hszc hjunk hszj
  have le2 : (encTLV 2 e).length = e.length + 2 := encTLV_length_short 2 (by omega)
  have lA : (encTLV 160 (encTLV 2 e)).length = e.length + 4 := by
    rw [encTLV_length_short 160 (by rw [le2]; omega), le2]
  have lK2 : (encTLV 2 kb).length ≤ kb.length + 10 :=
    encTLV_length 2 (by norm_num at hszk ⊢; omega)
  have lK : (encTLV 161 (encTLV 2 kb)).length ≤ kb.length + 20 := by
    have := encTLV_length 161 (c := encTLV 2 kb) (by norm_num at hszk lK2 ⊢; omega)
    omega
  have lC2 : (encTLV 4 c).length ≤ c.length + 10 :=
    encTLV_length 4 (by norm_num at hszc ⊢; omega)
  have lC : (encTLV 162 (encTLV 4 c)).length ≤ c.length + 20 := by
    have := encTLV_length 162 (c := encTLV 4 c) (by norm_num at hszc lC2 ⊢; omega)
    omega
  have hA := field_int32 0 160 e
    (encTLV 161 (encTLV 2 kb) ++ (encTLV 162 (encTLV 4 c) ++ junk)) hok h1 h4 rfl
  have hK := field_uint32 1 161 kb
    (encTLV 162 (encTLV 4 c) ++ junk) hokk hvk hszk rfl
  have hC := field_octet 2 162 c junk hszc rfl
  have hj : eofP junk = .err .eofFail := by
    cases junk with
    | nil => exact absurd rfl hjunk
    | cons a t => rfl
  simp only [parse_encrypted, encEncryptedData, encOptKvno, pmap]
  rw [encTLV_append 48]
  rw [parse_der_struct_enc 48 _ _ ext
    (by simp only [List.length_append]
        norm_num at hszk hszc hszj ⊢
        omega)
    (by norm_num)]
  simp only [List.append_assoc]
  simp only [pbind, popt, hA, hK, hC, hj, eofP, ppure]

/-- C8: the EncryptedData decoder accepts the sequence tag 0 (int32
`etype`), optional tag 1 (uint32 `kvno`), tag 2 (octet-string `cipher`),
with no trailing bytes permitted inside the sequence after tag 2; on
success the cipher view is byte-for-byte the source octet-string content,
and `kvno` is `some v` exactly when tag 1 was present with value `v` (first
two conjuncts: present and absent kvno; third: trailing bytes inside the
sequence are an `eof!` failure). -/
theorem claim_C8 :
    (∀ e kb c ext, ByteOk e → 1 ≤ e.length → e.length ≤ 4 → ByteOk kb →
      beNat kb ≤ 0xFFFFFFFF → kb.length < 2 ^ 60 → c.length < 2 ^ 60 →
      parse_encrypted (encEncryptedData e (some kb) c [] ++ ext) =
        .done ext (EncryptedData.mk (twosBE e) (some (beNat kb)) c)) ∧
    (∀ e c ext, ByteOk e → 1 ≤ e.length → e.length ≤ 4 → c.length < 2 ^ 60 →
      parse_encrypted (encEncryptedData e none c [] ++ ext) =
        .done ext (EncryptedData.mk (twosBE e) none c)) ∧
    (∀ e kb c junk ext, ByteOk e → 1 ≤ e.length → e.length ≤ 4 → ByteOk kb →
      beNat kb ≤ 0xFFFFFFFF → kb.length < 2 ^ 60 → c.length < 2 ^ 60 →
      junk ≠ [] → junk.length < 2 ^ 60 →
      parse_encrypted (encEncryptedData e (some kb) c junk ++ ext) =
        .err .eofFail) :=
  ⟨parse_encrypted_enc_some, parse_encrypted_enc_none, parse_encrypted_enc_trailing⟩

/-- Witness for C8: `etype = 18`, `kvno = 2`, a 16-byte cipher decodes with
the cipher byte-for-byte identical and `kvno = some 2`; one junk byte after
the cipher fails. -/
theorem claim_C8_witness :
    parse_encrypted (encEncryptedData [18] (some [2])
        [0, 1, 2, 3, 4, 5, 6, 7, 8, 9, 10, 11, 12, 13, 14, 15] [] ++ []) =
      .done [] (EncryptedData.mk 18 (some 2)
        [0, 1, 2, 3, 4, 5, 6, 7, 8, 9, 10, 11, 12, 13, 14, 15]) ∧
    parse_encrypted (encEncryptedData [18] (some [2]) [7] [0] ++ []) =
      .err .eofFail := by
  constructor
  · have h := claim_C8.1 [18] [2] [0, 1, 2, 3, 4, 5, 6, 7, 8, 9, 10, 11, 12, 13, 14, 15]
      [] (by decide) (by decide) (by decide) (by decide) (by decide) (by decide) (by decide)
    exact h.trans (by decide)
  · exact claim_C8.2.2 [18] [2] [7] [0] [] (by decide) (by decide) (by decide)
      (by decide) (by decide) (by decide) (by decide) (by decide) (by decide)

/-! ## Claim C9: open integer codes are never validated -/

/-- The 4-byte big-endian encoding of a 32-bit pattern. -/
def i32Bytes (n : Nat) : List Nat :=
  [n / 2 ^ 24 % 256, n / 2 ^ 16 % 256, n / 2 ^ 8 % 256, n % 256]

theorem byteOk_i32Bytes (n : Nat) : ByteOk (i32Bytes n) := by
  intro b hb
  simp [i32Bytes] at hb
  rcases hb with h | h | h | h <;> subst h <;> omega

theorem twosBE_i32Bytes {n : Nat} (h : n < 2 ^ 32) :
    twosBE (i32Bytes n) = i32val n := by
  have hbe : beNat (i32Bytes n) = n := by
    simp [beNat, i32Bytes]
    omega
  simp only [twosBE, i32Bytes, List.headD, List.length_cons, List.length_nil,
    i32val] at hbe ⊢
  rw [hbe]
  split_ifs <;> push_cast <;> omega

/-- A DER encoding of a PA-DATA value: SEQUENCE of `[1]` padata-type
(INTEGER content `tb`) and `[2]` padata-value (OCTET STRING content `c`). -/
def encPAData (tb c : List Nat) : List Nat :=
  encTLV 48 (encTLV 161 (encTLV 2 tb) ++ encTLV 162 (encTLV 4 c))

/-- C9: an open integer code field holding any 32-bit value — including one
absent from the known-constant catalogue, such as 9999 — decodes
successfully with the raw code preserved: `parse_encrypted` accepts every
`etype` code and `parse_krb5_padata` every `padata-type` code; neither
rejects an input because of the code's value. -/
theorem claim_C9 :
    (∀ n kb c ext, n < 2 ^ 32 → ByteOk kb → beNat kb ≤ 0xFFFFFFFF →
      kb.length < 2 ^ 60 → c.length < 2 ^ 60 →
      parse_encrypted (encEncryptedData (i32Bytes n) (some kb) c [] ++ ext) =
        .done ext (EncryptedData.mk (i32val n) (some (beNat kb)) c)) ∧
    (∀ n c ext, n < 2 ^ 32 → c.length < 2 ^ 60 →
      parse_krb5_padata (encPAData (i32Bytes n) c ++ ext) =
        .done ext (PAData.mk (i32val n) c)) := by
  constructor
  · intro n kb c ext hn hokk hvk hszk hszc
    have h := parse_encrypted_enc_some (i32Bytes n) kb c ext (byteOk_i32Bytes n)
      (by simp [i32Bytes]) (by simp [i32Bytes]) hokk hvk hszk hszc
    rwa [twosBE_i32Bytes hn] at h
  · intro n c ext hn hszc
    have le2 : (encTLV 2 (i32Bytes n)).length = 6 :=
      encTLV_length_short 2 (by simp [i32Bytes])
    have lA : (encTLV 161 (encTLV 2 (i32Bytes n))).length = 8 := by
      rw [encTLV_length_short 161 (by rw [le2]; omega), le2]
    have lC2 : (encTLV 4 c).length ≤ c.length + 10 :=
      encTLV_length 4 (by norm_num at hszc ⊢; omega)
    have lC : (encTLV 162 (encTLV 4 c)).length ≤ c.length + 20 := by
      have := encTLV_length 162 (c := encTLV 4 c) (by norm_num at hszc lC2 ⊢; omega)
      omega
    have hA := field_int32 1 161 (i32Bytes n)
      (encTLV 162 (encTLV 4 c)) (byteOk_i32Bytes n) (by simp [i32Bytes])
      (by simp [i32Bytes]) rfl
    have hC := field_octet 2 162 c [] hszc rfl
    rw [List.append_nil] at hC
    simp only [parse_krb5_padata, encPAData, map_res_str, pmap, pbind]
    rw [encTLV_append 48]
    rw [parse_der_struct_enc 48 _ _ ext
      (by simp only [List.length_append]
          norm_num at hszc ⊢
          omega)
      (by norm_num)]
    simp only [pbind, pmap, hA, hC, ppure]
    rw [twosBE_i32Bytes hn]
    norm_num

/-- Witness for C9: the unknown codes `etype = 9999` and
`padata-type = 9999` decode successfully with the raw value preserved. -/
theorem claim_C9_witness :
    parse_encrypted (encEncryptedData (i32Bytes 9999) (some [2]) [7, 8] [] ++ []) =
      .done [] (EncryptedData.mk 9999 (some 2) [7, 8]) ∧
    parse_krb5_padata (encPAData (i32Bytes 9999) [9] ++ []) =
      .done [] (PAData.mk 9999 [9]) := by
  constructor
  · have h := claim_C9.1 9999 [2] [7, 8] [] (by decide) (by decide) (by decide)
      (by decide) (by decide)
    exact h.trans (by decide)
  · have h := claim_C9.2 9999 [9] [] (by decide) (by decide)
    exact h.trans (by decide)

/-! ## Claim C4: KDC-REQ-BODY trailing optional fields -/

/-- The KDC-REQ-BODY field chain up to and including field 8 (`etype`),
values discarded: exactly the decoders the source applies to tags 0-8. -/
def kdcBodyThrough8 : Parser Unit :=
  pbind (parse_der_tagged 0 parse_kerberos_flags) fun _ =>
  pbind (popt (parse_der_tagged 1 parse_krb5_principalname)) fun _ =>
  pbind (parse_der_tagged 2 parse_krb5_realm) fun _ =>
  pbind (popt (parse_der_tagged 3 parse_krb5_principalname)) fun _ =>
  pbind (popt (parse_der_tagged 4 parse_kerberos_time)) fun _ =>
  pbind (parse_der_tagged 5 parse_kerberos_time) fun _ =>
  pbind (popt (pcomplete (parse_der_tagged 6 parse_kerberos_time))) fun _ =>
  pbind (parse_der_tagged 7 parse_der_uint32) fun _ =>
  pbind (parse_der_tagged 8 (parse_der_struct (many1 parse_der_int32))) fun _ =>
  ppure ()

theorem pbind_done_inv {α β} {p : Parser α} {f : α → Parser β} {i r : List Nat}
    {v : β} (h : pbind p f i = .done r v) :
    ∃ r0 v0, p i = .done r0 v0 ∧ f v0 r0 = .done r v := by
  cases hp : p i with
  | done r0 v0 => exact ⟨r0, v0, rfl, by simpa [pbind, hp] using h⟩
  | err e => simp [pbind, hp] at h
  | incomplete => simp [pbind, hp] at h

theorem parse_der_tagged_nil {α} (t : Nat) (p : Parser α) :
    parse_der_tagged t p [] = .incomplete := by
  simp [parse_der_tagged, pbind, der_read_element_header]

/-- C4: a KDC-REQ-BODY whose sequence content ends exactly after field 8
(the mandatory fields at tags 0, 2, 5, 7, 8 present, in particular)
decodes successfully with `addresses = []`, `enc_authorization_data = none`
and `additional_tickets = []`; and (second conjunct) an early end of
buffer while attempting one of the trailing `opt!(complete!(..))` optional
fields — tags 6, 9, 10, 11 — is treated as field-absent, not as an
error. -/
theorem claim_C4 :
    (∀ content ext, content.length < 2 ^ 64 →
      kdcBodyThrough8 content = .done [] () →
      ∃ b, parse_kdc_req_body (48 :: encLen content.length ++ content ++ ext) =
          .done ext b ∧ b.addresses = [] ∧ b.enc_authorization_data = none ∧
          b.additional_tickets = []) ∧
    (∀ (α : Type) (p : Parser α) i, p i = .incomplete →
      popt (pcomplete p) i = .done i none) := by
  constructor
  · intro content ext hsz hchain
    simp only [kdcBodyThrough8] at hchain
    obtain ⟨r0, v0, h0, hchain⟩ := pbind_done_inv hchain
    obtain ⟨r1, v1, h1, hchain⟩ := pbind_done_inv hchain
    obtain ⟨r2, v2, h2, hchain⟩ := pbind_done_inv hchain
    obtain ⟨r3, v3, h3, hchain⟩ := pbind_done_inv hchain
    obtain ⟨r4, v4, h4, hchain⟩ := pbind_done_inv hchain
    obtain ⟨r5, v5, h5, hchain⟩ := pbind_done_inv hchain
    obtain ⟨r6, v6, h6, hchain⟩ := pbind_done_inv hchain
    obtain ⟨r7, v7, h7, hchain⟩ := pbind_done_inv hchain
    obtain ⟨r8, v8, h8, hchain⟩ := pbind_done_inv hchain
    have hr8 : r8 = [] := by
      simpa [ppure] using hchain
    subst hr8
    simp only [parse_kdc_req_body, pmap]
    rw [show (48 : Nat) :: encLen content.length ++ content ++ ext =
      48 :: encLen content.length ++ content ++ ext from rfl]
    rw [parse_der_struct_enc 48 _ content ext hsz (by norm_num)]
    simp only [pbind, h0, h1, h2, h3, h4, h5, h6, h7, h8]
    simp only [popt, pcomplete, parse_der_tagged_nil, eofP, ppure]
    exact ⟨_, rfl, rfl, rfl, rfl⟩
  · intro α p i h
    simp [popt, pcomplete, h]

/-- The concrete KDC-REQ-BODY content used as the C4 witness: fields 0, 2,
5, 7, 8 present, buffer ending exactly after field 8. -/
def kdcBodyContent : List Nat :=
  [160, 4, 3, 2, 0, 5, 162, 3, 27, 1, 65, 165, 3, 24, 1, 48,
   167, 3, 2, 1, 7, 168, 5, 48, 3, 2, 1, 18]

/-- Checks that a KDC-REQ-BODY decode succeeded with the three trailing
optional collections empty. -/
def bodyOptionalsEmpty : PRes KdcReqBody → Bool
  | .done _ b =>
    b.addresses.isEmpty && b.enc_authorization_data.isNone &&
      b.additional_tickets.isEmpty
  | _ => false

/-- Witness for C4 at the concrete content ending after field 8, plus the
field-absent behaviour of the tag-9 optional at an empty buffer. -/
theorem claim_C4_witness :
    bodyOptionalsEmpty (parse_kdc_req_body
      (48 :: encLen kdcBodyContent.length ++ kdcBodyContent ++ [])) = true ∧
    popt (pcomplete (parse_der_tagged 9 parse_krb5_hostaddresses)) [] =
      .done [] none := by
  constructor
  · obtain ⟨b, hb, ha, he, ht⟩ := claim_C4.1 kdcBodyContent [] (by decide) (by decide)
    rw [hb]
    simp [bodyOptionalsEmpty, ha, he, ht]
  · exact claim_C4.2 (List HostAddress) (parse_der_tagged 9 parse_krb5_hostaddresses)
      [] (by decide)

/-! ## Claim C10: empty inner sequences -/

/-- The KDC-REQ-BODY field chain up to and including field 7 (`nonce`). -/
def kdcBodyThrough7 : Parser Unit :=
  pbind (parse_der_tagged 0 parse_kerberos_flags) fun _ =>
  pbind (popt (parse_der_tagged 1 parse_krb5_principalname)) fun _ =>
  pbind (parse_der_tagged 2 parse_krb5_realm) fun _ =>
  pbind (popt (parse_der_tagged 3 parse_krb5_principalname)) fun _ =>
  pbind (popt (parse_der_tagged 4 parse_kerberos_time)) fun _ =>
  pbind (parse_der_tagged 5 parse_kerberos_time) fun _ =>
  pbind (popt (pcomplete (parse_der_tagged 6 parse_kerberos_time))) fun _ =>
  pbind (parse_der_tagged 7 parse_der_uint32) fun _ =>
  ppure ()

/-- C10: a present-but-empty inner SEQUENCE is a decode failure for the
KDC-REQ-BODY `etype` list (tag 8, `many1`, conjunct 1: the decode does not
produce a result — nom reports `Incomplete`) and for the
`additional-tickets` list (tag 11, `many1`; conjunct 2: the decode fails
at `eof!` because the unconsumed tag-11 bytes remain after the rejected
empty list is rewound to "absent"), whereas a present-but-empty
HostAddresses, PA-Data sequence, or PrincipalName name-string sequence
decodes successfully to the empty list (conjuncts 3-5). -/
theorem claim_C10 :
    (∀ content ext, content.length < 2 ^ 64 →
      kdcBodyThrough7 content = .done [168, 2, 48, 0] () →
      parse_kdc_req_body (48 :: encLen content.length ++ content ++ ext) =
        .incomplete) ∧
    (∀ content ext, content.length < 2 ^ 64 →
      kdcBodyThrough8 content = .done [171, 2, 48, 0] () →
      parse_kdc_req_body (48 :: encLen content.length ++ content ++ ext) =
        .err .eofFail) ∧
    (∀ ext, parse_krb5_hostaddresses (48 :: 0 :: ext) = .done ext []) ∧
    (∀ ext, parse_krb5_padata_sequence (48 :: 0 :: ext) = .done ext []) ∧
    (∀ ext, parse_kerberos_string_sequence (48 :: 0 :: ext) = .done ext []) := by
  refine ⟨?_, ?_, ?_, ?_, ?_⟩
  · intro content ext hsz hchain
    simp only [kdcBodyThrough7] at hchain
    obtain ⟨r0, v0, h0, hchain⟩ := pbind_done_inv hchain
    obtain ⟨r1, v1, h1, hchain⟩ := pbind_done_inv hchain
    obtain ⟨r2, v2, h2, hchain⟩ := pbind_done_inv hchain
    obtain ⟨r3, v3, h3, hchain⟩ := pbind_done_inv hchain
    obtain ⟨r4, v4, h4, hchain⟩ := pbind_done_inv hchain
    obtain ⟨r5, v5, h5, hchain⟩ := pbind_done_inv hchain
    obtain ⟨r6, v6, h6, hchain⟩ := pbind_done_inv hchain
    obtain ⟨r7, v7, h7, hchain⟩ := pbind_done_inv hchain
    have hr7 : r7 = [168, 2, 48, 0] := by
      simpa [ppure] using hchain
    subst hr7
    have hT8 : parse_der_tagged 8 (parse_der_struct (many1 parse_der_int32))
        [168, 2, 48, 0] = .incomplete := by decide
    simp only [parse_kdc_req_body, pmap]
    rw [parse_der_struct_enc 48 _ content ext hsz (by norm_num)]
    simp only [pbind, h0, h1, h2, h3, h4, h5, h6, h7, hT8]
  · intro content ext hsz hchain
    simp only [kdcBodyThrough8] at hchain
    obtain ⟨r0, v0, h0, hchain⟩ := pbind_done_inv hchain
    obtain ⟨r1, v1, h1, hchain⟩ := pbind_done_inv hchain
    obtain ⟨r2, v2, h2, hchain⟩ := pbind_done_inv hchain
    obtain ⟨r3, v3, h3, hchain⟩ := pbind_done_inv hchain
    obtain ⟨r4, v4, h4, hchain⟩ := pbind_done_inv hchain
    obtain ⟨r5, v5, h5, hchain⟩ := pbind_done_inv hchain
    obtain ⟨r6, v6, h6, hchain⟩ := pbind_done_inv hchain
    obtain ⟨r7, v7, h7, hchain⟩ := pbind_done_inv hchain
    obtain ⟨r8, v8, h8, hchain⟩ := pbind_done_inv hchain
    have hr8 : r8 = [171, 2, 48, 0] := by
      simpa [ppure] using hchain
    subst hr8
    have h9 : popt (pcomplete (parse_der_tagged 9 parse_krb5_hostaddresses))
        [171, 2, 48, 0] = .done [171, 2, 48, 0] none := by decide
    have h10 : popt (pcomplete (parse_der_tagged 10 parse_encrypted))
        [171, 2, 48, 0] = .done [171, 2, 48, 0] none := by decide
    have h11 : popt (pcomplete (parse_der_tagged 11
        (parse_der_struct (many1 parse_krb5_ticket))))
        [171, 2, 48, 0] = .done [171, 2, 48, 0] none := by decide
    have heof : eofP [171, 2, 48, 0] = .err .eofFail := rfl
    simp only [parse_kdc_req_body, pmap]
    rw [parse_der_struct_enc 48 _ content ext hsz (by norm_num)]
    simp only [pbind, h0, h1, h2, h3, h4, h5, h6, h7, h8, h9, h10, h11, heof]
  · intro ext
    simp [parse_krb5_hostaddresses, map_res_str, parse_der_struct, pbind, pmap,
      error_if, der_read_element_header, flat_take, many0, many0F]
  · intro ext
    simp [parse_krb5_padata_sequence, map_res_str, parse_der_struct, pbind, pmap,
      error_if, der_read_element_header, flat_take, many0, many0F]
  · intro ext
    simp [parse_kerberos_string_sequence, map_res_str, parse_der_struct, pbind,
      pmap, error_if, der_read_element_header, flat_take, many0, many0F]

/-- The body content for the C10 witness of the tag-8 case: fields 0-7
followed by tag 8 wrapping an empty SEQUENCE. -/
def kdcBodyEmptyEtype : List Nat :=
  [160, 4, 3, 2, 0, 5, 162, 3, 27, 1, 65, 165, 3, 24, 1, 48,
   167, 3, 2, 1, 7] ++ [168, 2, 48, 0]

/-- The body content for the C10 witness of the tag-11 case: fields 0-8
followed by tag 11 wrapping an empty SEQUENCE. -/
def kdcBodyEmptyTickets : List Nat := kdcBodyContent ++ [171, 2, 48, 0]

/-- Witness for C10: both empty-sequence cases fail on concrete inputs. -/
theorem claim_C10_witness :
    parse_kdc_req_body
      (48 :: encLen kdcBodyEmptyEtype.length ++ kdcBodyEmptyEtype ++ []) =
        .incomplete ∧
    parse_kdc_req_body
      (48 :: encLen kdcBodyEmptyTickets.length ++ kdcBodyEmptyTickets ++ []) =
        .err .eofFail :=
  ⟨claim_C10.1 kdcBodyEmptyEtype [] (by decide) (by decide),
   claim_C10.2.1 kdcBodyEmptyTickets [] (by decide) (by decide)⟩

/-! ## Claim C2: msg_type is not validated by the REQ/REP decoders -/

/-- Recognises a parse that succeeded consuming the whole input. -/
def isDoneNil {α} : PRes α → Bool
  | .done [] _ => true
  | _ => false

theorem exists_done_nil {α} {p : PRes α} (h : isDoneNil p = true) :
    ∃ b, p = .done [] b := by
  cases p with
  | done r v =>
    cases r with
    | nil => exact ⟨v, rfl⟩
    | cons a t => simp [isDoneNil] at h
  | err e => simp [isDoneNil] at h
  | incomplete => simp [isDoneNil] at h

/-- The decoded `msg_type` of a successful KDC-REQ parse. -/
def reqMsgType : PRes KdcReq → Option Nat
  | .done _ q => some q.msg_type
  | _ => none

/-- The decoded `msg_type` of a successful KDC-REP parse. -/
def repMsgType : PRes KdcRep → Option Nat
  | .done _ q => some q.msg_type
  | _ => none

/-- A KDC-REQ encoding with `pvno = 5`, `msg-type` INTEGER content `mb`,
no padata, and the fixed witness request body. -/
def encKdcReq (mb : List Nat) : List Nat :=
  encTLV 48 (encTLV 161 (encTLV 2 [5]) ++ encTLV 162 (encTLV 2 mb) ++
    encTLV 164 (encTLV 48 kdcBodyContent))

/-- A TGS-REQ encoding: APPLICATION 12 around `encKdcReq`. -/
def encTgsReq (mb : List Nat) : List Nat := encTLV 108 (encKdcReq mb)

theorem kdc_req_eval (mb : List Nat) (ext : List Nat) (hok : ByteOk mb)
    (hv : beNat mb ≤ 0xFFFFFFFF) (hsz : mb.length < 2 ^ 60) :
    ∃ q, parse_kdc_req (encKdcReq mb ++ ext) = .done ext q ∧
      q.msg_type = beNat mb ∧ q.pvno = 5 := by
  have lM2 : (encTLV 2 mb).length ≤ mb.length + 10 :=
    encTLV_length 2 (by norm_num at hsz ⊢; omega)
  have lM : (encTLV 162 (encTLV 2 mb)).length ≤ mb.length + 20 := by
    have := encTLV_length 162 (c := encTLV 2 mb) (by norm_num at hsz lM2 ⊢; omega)
    omega
  have hPv := field_uint32 1 161 [5]
    (encTLV 162 (encTLV 2 mb) ++ encTLV 164 (encTLV 48 kdcBodyContent))
    (by decide) (by decide) (by decide) rfl
  have hMsg := field_uint32 2 162 mb
    (encTLV 164 (encTLV 48 kdcBodyContent)) hok hv hsz rfl
  have hwt := field_wrong_tag 3 164 parse_krb5_padata_sequence
    (encTLV 48 kdcBodyContent) [] (by decide) (by norm_num)
  rw [List.append_nil] at hwt
  obtain ⟨b, hb⟩ := exists_done_nil
    (p := parse_kdc_req_body (encTLV 48 kdcBodyContent)) (by decide)
  have hT4 : parse_der_tagged 4 parse_kdc_req_body
      (encTLV 164 (encTLV 48 kdcBodyContent)) = .done [] b := by
    rw [show encTLV 164 (encTLV 48 kdcBodyContent) =
      encTLV 164 (encTLV 48 kdcBodyContent) ++ [] from (List.append_nil _).symm]
    rw [encTLV_append 164]
    rw [parse_der_tagged_enc 4 164 parse_kdc_req_body
      (encTLV 48 kdcBodyContent) [] (by decide) rfl]
    simp only [hb]
  simp only [parse_kdc_req, pmap, encKdcReq]
  rw [encTLV_append 48]
  rw [parse_der_struct_enc 48 _ _ ext
    (by have lP : (encTLV 161 (encTLV 2 [5])).length = 5 := by decide
        have lB : (encTLV 164 (encTLV 48 kdcBodyContent)).length = 32 := by decide
        simp only [List.length_append, lP, lB]
        norm_num at hsz lM ⊢
        omega)
    (by norm_num)]
  simp only [List.append_assoc]
  simp only [pbind, popt, hPv, hMsg, hwt, hT4, eofP, ppure]
  exact ⟨_, rfl, rfl, rfl⟩

theorem encKdcReq_length (mb : List Nat) (hsz : mb.length < 2 ^ 60) :
    (encKdcReq mb).length ≤ mb.length + 80 := by
  have lM2 : (encTLV 2 mb).length ≤ mb.length + 10 :=
    encTLV_length 2 (by norm_num at hsz ⊢; omega)
  have lM : (encTLV 162 (encTLV 2 mb)).length ≤ mb.length + 20 := by
    have := encTLV_length 162 (c := encTLV 2 mb) (by norm_num at hsz lM2 ⊢; omega)
    omega
  have lP : (encTLV 161 (encTLV 2 [5])).length = 5 := by decide
  have lB : (encTLV 164 (encTLV 48 kdcBodyContent)).length = 32 := by decide
  have lS : (encTLV 161 (encTLV 2 [5]) ++ encTLV 162 (encTLV 2 mb) ++
      encTLV 164 (encTLV 48 kdcBodyContent)).length ≤ mb.length + 57 := by
    simp only [List.length_append, lP, lB]
    omega
  have := encTLV_length 48
    (c := encTLV 161 (encTLV 2 [5]) ++ encTLV 162 (encTLV 2 mb) ++
      encTLV 164 (encTLV 48 kdcBodyContent))
    (by norm_num at hsz lS ⊢; omega)
  simp only [encKdcReq]
  omega

theorem tgs_req_eval (mb ext : List Nat) (hok : ByteOk mb)
    (hv : beNat mb ≤ 0xFFFFFFFF) (hsz : mb.length < 2 ^ 60) :
    ∃ q, parse_tgs_req (encTgsReq mb ++ ext) = .done ext q ∧
      q.msg_type = beNat mb ∧ q.pvno = 5 := by
  obtain ⟨q, hq, hm, hp⟩ := kdc_req_eval mb [] hok hv hsz
  rw [List.append_nil] at hq
  simp only [parse_tgs_req, pmap, encTgsReq]
  rw [encTLV_append 108]
  rw [parse_der_application_enc 12 108 parse_kdc_req (encKdcReq mb) ext
    (by have := encKdcReq_length mb hsz; norm_num at hsz ⊢; omega)
    (by norm_num) (by norm_num)]
  simp only [hq]
  exact ⟨q, rfl, hm, hp⟩

/-- A KDC-REP encoding with `pvno = 5`, `msg-type` INTEGER content `mb`,
no padata, and fixed well-formed crealm/cname/ticket/enc-part fields. -/
def encKdcRep (mb : List Nat) : List Nat :=
  encTLV 48 (encTLV 160 (encTLV 2 [5]) ++ encTLV 161 (encTLV 2 mb) ++
    encTLV 163 (encTLV 27 [65]) ++ encTLV 164 pnameBytes ++
    encTLV 165 (ticketBytes 5) ++ encTLV 166 (encEncryptedData [18] none [7] []))

/-- An AS-REP encoding: APPLICATION 11 around `encKdcRep`. -/
def encAsRep (mb : List Nat) : List Nat := encTLV 107 (encKdcRep mb)

/-- A TGS-REP encoding: APPLICATION 13 around `encKdcRep`. -/
def encTgsRep (mb : List Nat) : List Nat := encTLV 109 (encKdcRep mb)

theorem kdc_rep_eval (mb ext : List Nat) (hok : ByteOk mb)
    (hv : beNat mb ≤ 0xFFFFFFFF) (hsz : mb.length < 2 ^ 60) :
    ∃ q, parse_kdc_rep (encKdcRep mb ++ ext) = .done ext q ∧
      q.msg_type = beNat mb ∧ q.pvno = 5 := by
  have lM2 : (encTLV 2 mb).length ≤ mb.length + 10 :=
    encTLV_length 2 (by norm_num at hsz ⊢; omega)
  have lM : (encTLV 161 (encTLV 2 mb)).length ≤ mb.length + 20 := by
    have := encTLV_length 161 (c := encTLV 2 mb) (by norm_num at hsz lM2 ⊢; omega)
    omega
  have hPv := field_uint32 0 160 [5]
    (encTLV 161 (encTLV 2 mb) ++ (encTLV 163 (encTLV 27 [65]) ++
      (encTLV 164 pnameBytes ++ (encTLV 165 (ticketBytes 5) ++
        encTLV 166 (encEncryptedData [18] none [7] [])))))
    (by decide) (by decide) (by decide) rfl
  have hMsg := field_uint32 1 161 mb
    (encTLV 163 (encTLV 27 [65]) ++ (encTLV 164 pnameBytes ++
      (encTLV 165 (ticketBytes 5) ++
        encTLV 166 (encEncryptedData [18] none [7] []))))
    hok hv hsz rfl
  have hwt := field_wrong_tag 2 163 parse_krb5_padata_sequence
    (encTLV 27 [65])
    (encTLV 164 pnameBytes ++ (encTLV 165 (ticketBytes 5) ++
      encTLV 166 (encEncryptedData [18] none [7] [])))
    (by decide) (by norm_num)
  have hre : parse_krb5_realm (encTLV 27 [65]) = .done [] (Realm.mk [65]) := by
    decide
  have hT3 : parse_der_tagged 3 parse_krb5_realm (encTLV 163 (encTLV 27 [65]) ++
      (encTLV 164 pnameBytes ++ (encTLV 165 (ticketBytes 5) ++
        encTLV 166 (encEncryptedData [18] none [7] [])))) =
      .done (encTLV 164 pnameBytes ++ (encTLV 165 (ticketBytes 5) ++
        encTLV 166 (encEncryptedData [18] none [7] []))) (Realm.mk [65]) := by
    rw [encTLV_append 163]
    rw [parse_der_tagged_enc 3 163 _ _ _ (by decide) rfl]
    simp only [hre]
  have hpn : parse_krb5_principalname pnameBytes =
      .done [] (PrincipalName.mk 1 [[65]]) := by decide
  have hT4 : parse_der_tagged 4 parse_krb5_principalname
      (encTLV 164 pnameBytes ++ (encTLV 165 (ticketBytes 5) ++
        encTLV 166 (encEncryptedData [18] none [7] []))) =
      .done (encTLV 165 (ticketBytes 5) ++
        encTLV 166 (encEncryptedData [18] none [7] []))
        (PrincipalName.mk 1 [[65]]) := by
    rw [encTLV_append 164]
    rw [parse_der_tagged_enc 4 164 _ _ _ (by decide) rfl]
    simp only [hpn]
  obtain ⟨tk, htk⟩ := exists_done_nil
    (p := parse_krb5_ticket (ticketBytes 5)) (by decide)
  have hT5 : parse_der_tagged 5 parse_krb5_ticket
      (encTLV 165 (ticketBytes 5) ++
        encTLV 166 (encEncryptedData [18] none [7] [])) =
      .done (encTLV 166 (encEncryptedData [18] none [7] [])) tk := by
    rw [encTLV_append 165]
    rw [parse_der_tagged_enc 5 165 _ _ _ (by decide) rfl]
    simp only [htk]
  obtain ⟨ed, hed⟩ := exists_done_nil
    (p := parse_encrypted (encEncryptedData [18] none [7] [])) (by decide)
  have hT6 : parse_der_tagged 6 parse_encrypted
      (encTLV 166 (encEncryptedData [18] none [7] [])) = .done [] ed := by
    rw [show encTLV 166 (encEncryptedData [18] none [7] []) =
      encTLV 166 (encEncryptedData [18] none [7] []) ++ [] from
      (List.append_nil _).symm]
    rw [encTLV_append 166]
    rw [parse_der_tagged_enc 6 166 _ _ [] (by decide) rfl]
    simp only [hed]
  simp only [parse_kdc_rep, pmap, encKdcRep]
  rw [encTLV_append 48]
  rw [parse_der_struct_enc 48 _ _ ext
    (by have l0 : (encTLV 160 (encTLV 2 [5])).length = 5 := by decide
        have lCr : (encTLV 163 (encTLV 27 [65])).length = 5 := by decide
        have lCn : (encTLV 164 pnameBytes).length = 16 := by decide
        have lTk : (encTLV 165 (ticketBytes 5)).length = 37 := by decide
        have lEd : (encTLV 166 (encEncryptedData [18] none [7] [])).length = 14 := by
          decide
        simp only [List.length_append, l0, lCr, lCn, lTk, lEd]
        norm_num at hsz lM ⊢
        omega)
    (by norm_num)]
  simp only [List.append_assoc]
  simp only [pbind, popt, hPv, hMsg, hwt, hT3, hT4, hT5, hT6, eofP, ppure]
  exact ⟨_, rfl, rfl, rfl⟩

theorem encKdcRep_length (mb : List Nat) (hsz : mb.length < 2 ^ 60) :
    (encKdcRep mb).length ≤ mb.length + 120 := by
  have lM2 : (encTLV 2 mb).length ≤ mb.length + 10 :=
    encTLV_length 2 (by norm_num at hsz ⊢; omega)
  have lM : (encTLV 161 (encTLV 2 mb)).length ≤ mb.length + 20 := by
    have := encTLV_length 161 (c := encTLV 2 mb) (by norm_num at hsz lM2 ⊢; omega)
    omega
  have l0 : (encTLV 160 (encTLV 2 [5])).length = 5 := by decide
  have lCr : (encTLV 163 (encTLV 27 [65])).length = 5 := by decide
  have lCn : (encTLV 164 pnameBytes).length = 16 := by decide
  have lTk : (encTLV 165 (ticketBytes 5)).length = 37 := by decide
  have lEd : (encTLV 166 (encEncryptedData [18] none [7] [])).length = 14 := by
    decide
  have lS : (encTLV 160 (encTLV 2 [5]) ++ encTLV 161 (encTLV 2 mb) ++
      encTLV 163 (encTLV 27 [65]) ++ encTLV 164 pnameBytes ++
      encTLV 165 (ticketBytes 5) ++
      encTLV 166 (encEncryptedData [18] none [7] [])).length ≤
      mb.length + 97 := by
    simp only [List.length_append, l0, lCr, lCn, lTk, lEd]
    omega
  have := encTLV_length 48
    (c := encTLV 160 (encTLV 2 [5]) ++ encTLV 161 (encTLV 2 mb) ++
      encTLV 163 (encTLV 27 [65]) ++ encTLV 164 pnameBytes ++
      encTLV 165 (ticketBytes 5) ++
      encTLV 166 (encEncryptedData [18] none [7] []))
    (by norm_num at hsz lS ⊢; omega)
  simp only [encKdcRep]
  omega

theorem as_rep_eval (mb ext : List Nat) (hok : ByteOk mb)
    (hv : beNat mb ≤ 0xFFFFFFFF) (hsz : mb.length < 2 ^ 60) :
    ∃ q, parse_as_rep (encAsRep mb ++ ext) = .done ext q ∧
      q.msg_type = beNat mb ∧ q.pvno = 5 := by
  obtain ⟨q, hq, hm, hp⟩ := kdc_rep_eval mb [] hok hv hsz
  rw [List.append_nil] at hq
  simp only [parse_as_rep, pmap, encAsRep]
  rw [encTLV_append 107]
  rw [parse_der_application_enc 11 107 parse_kdc_rep (encKdcRep mb) ext
    (by have := encKdcRep_length mb hsz; norm_num at hsz ⊢; omega)
    (by norm_num) (by norm_num)]
  simp only [hq]
  exact ⟨q, rfl, hm, hp⟩

theorem tgs_rep_eval (mb ext : List Nat) (hok : ByteOk mb)
    (hv : beNat mb ≤ 0xFFFFFFFF) (hsz : mb.length < 2 ^ 60) :
    ∃ q, parse_tgs_rep (encTgsRep mb ++ ext) = .done ext q ∧
      q.msg_type = beNat mb ∧ q.pvno = 5 := by
  obtain ⟨q, hq, hm, hp⟩ := kdc_rep_eval mb [] hok hv hsz
  rw [List.append_nil] at hq
  simp only [parse_tgs_rep, pmap, encTgsRep]
  rw [encTLV_append 109]
  rw [parse_der_application_enc 13 109 parse_kdc_rep (encKdcRep mb) ext
    (by have := encKdcRep_length mb hsz; norm_num at hsz ⊢; omega)
    (by norm_num) (by norm_num)]
  simp only [hq]
  exact ⟨q, rfl, hm, hp⟩

/-- C2 counterexample: a TGS-REQ whose `msg_type` is 99 — with the
APPLICATION wrapper and the whole body well-formed — decodes successfully
(so does an AS-REP and a TGS-REP with `msg_type = 99`), refuting the claim
that these decoders enforce `msg_type == 12 / 11 / 13`. -/
theorem claim_C2_counterexample :
    reqMsgType (parse_tgs_req (encTgsReq [99])) = some 99 ∧
    repMsgType (parse_as_rep (encAsRep [99])) = some 99 ∧
    repMsgType (parse_tgs_rep (encTgsRep [99])) = some 99 := by
  decide

/-- C2 (amended): decoding a TGS-REQ, AS-REP or TGS-REP does not validate
`msg_type` at all: for inputs whose APPLICATION wrapper and body structure
otherwise decode, a `msg_type` field holding any byte value — 12/11/13 or
not — decodes successfully with the raw value preserved in the result. -/
theorem claim_C2 : ∀ m : Nat, m < 256 →
    (∃ q, parse_tgs_req (encTgsReq [m]) = .done [] q ∧ q.msg_type = m) ∧
    (∃ q, parse_as_rep (encAsRep [m]) = .done [] q ∧ q.msg_type = m) ∧
    (∃ q, parse_tgs_rep (encTgsRep [m]) = .done [] q ∧ q.msg_type = m) := by
  intro m hm
  have hok : ByteOk [m] := by
    intro b hb
    simp at hb
    omega
  have hv : beNat [m] ≤ 0xFFFFFFFF := by
    simp [beNat]
    omega
  have hsz : ([m] : List Nat).length < 2 ^ 60 := by norm_num
  have hbe : beNat [m] = m := by simp [beNat]
  obtain ⟨q1, hq1, hm1, _⟩ := tgs_req_eval [m] [] hok hv hsz
  obtain ⟨q2, hq2, hm2, _⟩ := as_rep_eval [m] [] hok hv hsz
  obtain ⟨q3, hq3, hm3, _⟩ := tgs_rep_eval [m] [] hok hv hsz
  rw [List.append_nil] at hq1 hq2 hq3
  exact ⟨⟨q1, hq1, by rw [hm1, hbe]⟩, ⟨q2, hq2, by rw [hm2, hbe]⟩,
    ⟨q3, hq3, by rw [hm3, hbe]⟩⟩

/-- Witness for the amended C2 at the concrete unknown code 42. -/
theorem claim_C2_witness :
    reqMsgType (parse_tgs_req (encTgsReq [42])) = some 42 ∧
    repMsgType (parse_as_rep (encAsRep [42])) = some 42 ∧
    repMsgType (parse_tgs_rep (encTgsRep [42])) = some 42 := by
  obtain ⟨⟨q1, h1, m1⟩, ⟨q2, h2, m2⟩, ⟨q3, h3, m3⟩⟩ := claim_C2 42 (by decide)
  simp [reqMsgType, repMsgType, h1, h2, h3, m1, m2, m3]
